import Mathlib

/-!
Shallow embedding of the orchestration engine of the "P vs NP Autonomous
Solver" (src/index.tsx) and verification of its specified properties.

The embedding models the process-wide mutable state of the engine
(knowledge graph, counters, agent registry, semantic index, scheduler
flags) as a `MissionState` record, and each state-mutating operation of
the source as a pure state transformer.  JavaScript `Map`s are modelled
as insertion-ordered association lists, JavaScript strings as Lean
`String`s with character-level re-implementations of the string methods
the source uses (`split`, `trim`, `startsWith`, `toUpperCase`,
`includes`, `substring`, `join`), and JavaScript numbers as `ℚ`/`ℤ`/`ℕ`
(scores and promise values as rationals; the floating-point values the
source manipulates stay within ranges where the comparisons performed
are exact) with the cosine-similarity score idealised into `ℝ` because
the source takes a square root.
-/

/-! ### Character-level models of the JavaScript string methods -/

/-- Model of `str.split(c)` (single-character separator), on `List Char`:
`splitCharAux c l cur` processes `l` with accumulated current segment
`cur` (reversed). -/
def splitCharAux (c : Char) : List Char → List Char → List (List Char)
  | [], cur => [cur.reverse]
  | x :: xs, cur =>
    if x = c then cur.reverse :: splitCharAux c xs []
    else splitCharAux c xs (x :: cur)

/-- Model of JavaScript `s.split(c)` for a one-character separator `c`. -/
def jsSplit (s : String) (c : Char) : List String :=
  (splitCharAux c s.data []).map List.asString

/-- Model of JavaScript `s.toUpperCase()` (ASCII fragment, which is all the
source compares against). -/
def jsToUpper (s : String) : String :=
  ⟨s.data.map Char.toUpper⟩

/-- Model of JavaScript `s.startsWith(pre)`. -/
def jsStartsWith (s pre : String) : Bool :=
  pre.data.isPrefixOf s.data

/-- Model of JavaScript `s.trim()`: drop whitespace from both ends. -/
def jsTrim (s : String) : String :=
  ⟨((s.data.dropWhile Char.isWhitespace).reverse.dropWhile Char.isWhitespace).reverse⟩

/-- Helper for `jsIncludes`: does `need` occur as a contiguous sublist of
the first argument? -/
def containsChars (need : List Char) : List Char → Bool
  | [] => need.isEmpty
  | x :: t => need.isPrefixOf (x :: t) || containsChars need t

/-- Model of JavaScript `s.includes(sub)`. -/
def jsIncludes (s sub : String) : Bool :=
  containsChars sub.data s.data

/-- Model of JavaScript `s.substring(0, n)`. -/
def jsTake (s : String) (n : Nat) : String :=
  ⟨s.data.take n⟩

/-- Helper for `jsJoin`: interleave `sep` between the given segments. -/
def joinChars (sep : List Char) : List (List Char) → List Char
  | [] => []
  | [x] => x
  | x :: y :: rest => x ++ (sep ++ joinChars sep (y :: rest))

/-- Model of JavaScript `parts.join(sep)`. -/
def jsJoin (sep : String) (parts : List String) : String :=
  ⟨joinChars sep.data (parts.map String.data)⟩

/-! ### Data model (src/index.tsx, "Metacognitive Components")

`NodeType` is the fixed enumeration of knowledge-node types. -/

inductive NodeType where
  | THEOREM
  | HYPOTHESIS
  | REFUTATION
  | DIRECTIVE
  | LEMMA
  | CONCEPT
  | ANALOGY
  | RESEARCH_VECTOR
  | VERIFICATION_SUCCESS
  | VERIFICATION_FAILURE
  | CODE_EXPERIMENT
  | ABSTRACTION
  | SUB_GOAL
  deriving DecidableEq

/-- The literal string value of a `NodeType` (the TypeScript union is a
union of these string literals). -/
def nodeTypeName : NodeType → String
  | .THEOREM => "THEOREM"
  | .HYPOTHESIS => "HYPOTHESIS"
  | .REFUTATION => "REFUTATION"
  | .DIRECTIVE => "DIRECTIVE"
  | .LEMMA => "LEMMA"
  | .CONCEPT => "CONCEPT"
  | .ANALOGY => "ANALOGY"
  | .RESEARCH_VECTOR => "RESEARCH_VECTOR"
  | .VERIFICATION_SUCCESS => "VERIFICATION_SUCCESS"
  | .VERIFICATION_FAILURE => "VERIFICATION_FAILURE"
  | .CODE_EXPERIMENT => "CODE_EXPERIMENT"
  | .ABSTRACTION => "ABSTRACTION"
  | .SUB_GOAL => "SUB_GOAL"

/-- `node.type.charAt(0)` in `parseAndApplyArchitectResponse`. -/
def typeInitial (t : NodeType) : String :=
  jsTake (nodeTypeName t) 1

/-- `KnowledgeNode` (src/index.tsx): `invalidated` is `undefined` until
`renderKnowledgeGraph` recomputes it, which we model with `Option Bool`;
likewise `verified` is only ever set by the formal-verification tool. -/
structure KnowledgeNode where
  id : String
  type : NodeType
  content : String
  relations : List String
  invalidated : Option Bool := none
  verified : Option Bool := none
  createdBy : Option String := none
  promiseScore : ℚ := 1/2
  deriving DecidableEq

/-- `SpecialistMetadata` (src/index.tsx). -/
structure SpecialistMetadata where
  required_tools : List String
  lifespan_cycles : Option ℤ
  creationCycle : ℤ
  deriving DecidableEq

/-- Per-agent performance metric (`agentPerformanceMetrics` values). -/
structure PerfMetric where
  nodesCreated : ℕ
  totalPromise : ℚ
  deriving DecidableEq

/-- An entry of `vectorKnowledgeBase`: `{id, embedding}`. -/
structure VectorEntry where
  id : String
  embedding : List ℚ
  deriving DecidableEq

/-! ### JavaScript `Map` model: insertion-ordered association lists -/

/-- `map.get(k)`. -/
def mapGet {α : Type} (m : List (String × α)) (k : String) : Option α :=
  (m.find? (fun p => p.1 = k)).map Prod.snd

/-- `map.has(k)`. -/
def mapHas {α : Type} (m : List (String × α)) (k : String) : Bool :=
  (mapGet m k).isSome

/-- `map.set(k, v)`: overwrite in place if the key exists, else append
(JavaScript `Map` keeps the original insertion position on overwrite). -/
def mapSet {α : Type} (m : List (String × α)) (k : String) (v : α) :
    List (String × α) :=
  if mapHas m k then m.map (fun p => if p.1 = k then (k, v) else p)
  else m ++ [(k, v)]

/-- `map.delete(k)`. -/
def mapDelete {α : Type} (m : List (String × α)) (k : String) :
    List (String × α) :=
  m.filter (fun p => p.1 ≠ k)

/-! ### Process-wide mutable state -/

/-- The process-wide mutable state of the engine: every module-level
`let`/`Map` of src/index.tsx that the core operations read or write.
DOM handles and per-notebook log text are owned by the UI collaborator
and are not part of the core state; of the `notebooks` map we keep the
key set, because `deployNewAgent` branches on `notebooks.has(id)`.
`hasSavedState` models whether the single IndexedDB record exists. -/
structure MissionState where
  knowledgeGraphMap : List (String × KnowledgeNode)
  knowledgeNodeCounter : ℕ
  cycleCounter : ℤ
  stagnationCounter : ℕ
  currentMissionObjective : String
  activeResearchVector : String
  strategicFocusHistory : List String
  agentPerformanceMetrics : List (String × PerfMetric)
  vectorKnowledgeBase : List VectorEntry
  specialistPrompts : List (String × String)
  specialistMetadata : List (String × SpecialistMetadata)
  activeSpecialists : List String
  notebooks : List String
  isSearching : Bool
  searchIntervalId : Option ℕ
  hasSavedState : Bool
  finalProofContent : String

/-- The six permanent seed agents. -/
def seedAgents : List String :=
  ["specialist-1", "specialist-2", "specialist-3",
   "specialist-4", "specialist-5", "specialist-6"]

/-! ### Knowledge-graph invalidation (renderKnowledgeGraph) -/

/-- `const [action, targetId] = rel.split(':')`: the action is the text
before the first `:` and the target the segment after it (`undefined`,
i.e. `none`, when the relation has no `:`). -/
def relSplit (rel : String) : String × Option String :=
  match jsSplit rel ':' with
  | [] => ("", none)
  | [a] => (a, none)
  | a :: b :: _ => (a, some b)

/-- Does relation `rel` invalidate the node with id `target`?  Mirrors the
scan in `renderKnowledgeGraph`: the action segment, uppercased, must be
`INVALIDATES` or `REFUTES` and the target segment must equal `target`. -/
def invalidatesTarget (rel target : String) : Bool :=
  let action := (relSplit rel).1
  let targetId := (relSplit rel).2
  (jsToUpper action = "INVALIDATES" || jsToUpper action = "REFUTES") &&
    targetId = some target

/-- The derived invalidation status of the node with id `nodeId`:
membership of `nodeId` in the `invalidatedIds` set collected by
`renderKnowledgeGraph` from the relations of every node. -/
def computeInvalidated (nodes : List KnowledgeNode) (nodeId : String) : Bool :=
  nodes.any (fun n => n.relations.any (fun rel => invalidatesTarget rel nodeId))

/-- The state effect of `renderKnowledgeGraph`: every node's
`invalidated` flag is recomputed from the current relations. -/
def renderKnowledgeGraph (s : MissionState) : MissionState :=
  let nodes := s.knowledgeGraphMap.map Prod.snd
  { s with
    knowledgeGraphMap := s.knowledgeGraphMap.map
      (fun p => (p.1, { p.2 with invalidated := some (computeInvalidated nodes p.2.id) })) }

/-- The invalidation predicate as the specification words it: some OTHER
node has a relation that is literally `REFUTES:<id>` or
`INVALIDATES:<id>`.  Used only to compare the specification's wording
with the behaviour of `computeInvalidated`. -/
def specInvalidatedByOther (nodes : List KnowledgeNode) (nodeId : String) : Bool :=
  nodes.any (fun n =>
    n.id ≠ nodeId &&
      n.relations.any (fun rel =>
        rel = "REFUTES:" ++ nodeId || rel = "INVALIDATES:" ++ nodeId))

/-! ### Agent registry and lifecycle -/

/-- `retireAgent(id, reason)` (the reason only feeds a log entry): remove
the agent from every registry map and from the active list. -/
def retireAgent (s : MissionState) (id : String) : MissionState :=
  { s with
    notebooks := s.notebooks.filter (fun nid => nid ≠ id)
    specialistPrompts := mapDelete s.specialistPrompts id
    specialistMetadata := mapDelete s.specialistMetadata id
    agentPerformanceMetrics := mapDelete s.agentPerformanceMetrics id
    activeSpecialists := s.activeSpecialists.filter (fun sid => sid ≠ id) }

/-- `deployNewAgent(id, missionPrompt, …)`: a no-op when a notebook with
this id already exists; otherwise registers the notebook, prompt,
metadata (with `creationCycle` = current cycle), a zeroed performance
metric, and activates the agent. -/
def deployNewAgent (s : MissionState) (id missionPrompt : String)
    (required_tools : List String) (lifespan_cycles : Option ℤ) : MissionState :=
  if s.notebooks.contains id then s
  else
    { s with
      notebooks := s.notebooks ++ [id]
      specialistPrompts := mapSet s.specialistPrompts id missionPrompt
      specialistMetadata := mapSet s.specialistMetadata id
        { required_tools := required_tools
          lifespan_cycles := lifespan_cycles
          creationCycle := s.cycleCounter }
      agentPerformanceMetrics := mapSet s.agentPerformanceMetrics id
        { nodesCreated := 0, totalPromise := 0 }
      activeSpecialists :=
        if s.activeSpecialists.contains id then s.activeSpecialists
        else s.activeSpecialists ++ [id] }

/-- Is the active agent `id` due for retirement at the current cycle?
Mirrors the scan in `checkAgentLifecycles`: only agents with metadata
and a non-null lifespan are checked, and `age >= lifespan` expires. -/
def isExpiredAgent (s : MissionState) (id : String) : Bool :=
  match mapGet s.specialistMetadata id with
  | some meta =>
    match meta.lifespan_cycles with
    | some lifespan => decide (lifespan ≤ s.cycleCounter - meta.creationCycle)
    | none => false
  | none => false

/-- `checkAgentLifecycles()`: first collect every expired active agent,
then retire them in a second loop (so the scan never mutates the list it
iterates). -/
def checkAgentLifecycles (s : MissionState) : MissionState :=
  let agentsToRetire := s.activeSpecialists.filter (fun id => isExpiredAgent s id)
  agentsToRetire.foldl (fun st id => retireAgent st id) s

/-! ### Semantic index (Collective Consciousness)

`getEmbedding` delegates to the external embedding oracle; the engine
only ever uses the returned vector, which we take as given (`List ℚ`).
The floating-point score is idealised into `ℝ` because
`cosineSimilarity` takes a square root. -/

/-- `dotProduct(vecA, vecB)`.  The source loops over the indices of
`vecA`; it is only ever called on vectors of equal length (guarded in
`cosineSimilarity`), where it is the sum of pointwise products. -/
def dotProduct (vecA vecB : List ℚ) : ℚ :=
  (List.zipWith (fun a b => a * b) vecA vecB).sum

/-- `magnitude(vec)`: square root of the sum of squares. -/
noncomputable def magnitude (vec : List ℚ) : ℝ :=
  Real.sqrt (((vec.map (fun x => x * x)).sum : ℚ) : ℝ)

open scoped Classical in
/-- `cosineSimilarity(vecA, vecB)`: `0` when the lengths differ or either
magnitude is zero, else `dot / (magA * magB)`. -/
noncomputable def cosineSimilarity (vecA vecB : List ℚ) : ℝ :=
  if vecA.length ≠ vecB.length then 0
  else
    if magnitude vecA = 0 ∨ magnitude vecB = 0 then 0
    else ((dotProduct vecA vecB : ℚ) : ℝ) / (magnitude vecA * magnitude vecB)

/-- The scored list built by `performSemanticSearch`:
`vectorKnowledgeBase.map(item => ({id, score: cosineSimilarity(query, item.embedding)}))`. -/
noncomputable def scoredEntries (queryEmbedding : List ℚ) (base : List VectorEntry) :
    List (String × ℝ) :=
  base.map (fun item => (item.id, cosineSimilarity queryEmbedding item.embedding))

open scoped Classical in
/-- The comparator `(a, b) => b.score - a.score` passed to
`Array.prototype.sort`: `a` may stay before `b` iff `b.score ≤ a.score`.
`Array.prototype.sort` is a stable sort, modelled by `List.mergeSort`. -/
noncomputable def searchComparator (a b : String × ℝ) : Bool :=
  decide (b.2 ≤ a.2)

/-- `scores.sort((a, b) => b.score - a.score)`: the scored entries in
descending score order, ties kept in insertion order (stable sort). -/
noncomputable def rankedEntries (queryEmbedding : List ℚ) (base : List VectorEntry) :
    List (String × ℝ) :=
  (scoredEntries queryEmbedding base).mergeSort searchComparator

/-- `performSemanticSearch(query, k)` after the query embedding has been
obtained: take the top `k` scored entries and resolve them in the
knowledge graph, dropping ids that do not resolve (`filter` on
`undefined`).  The default for `k` in the source is `3`. -/
noncomputable def performSemanticSearch (graph : List (String × KnowledgeNode))
    (queryEmbedding : List ℚ) (base : List VectorEntry) (k : ℕ) :
    List KnowledgeNode :=
  ((rankedEntries queryEmbedding base).take k).filterMap
    (fun result => mapGet graph result.1)

/-! ### Architect tool effects (runArchitectStep switch) -/

/-- The structured payload placed in `functionResponse` and fed back to
the generation oracle after a tool effect.  Absent fields are `none`. -/
structure ToolResponse where
  success : Bool
  error : Option String := none
  message : Option String := none
  new_concept : Option String := none
  critique : Option String := none
  verified : Option Bool := none
  feedback : Option String := none
  stdout : Option String := none
  stderr : Option String := none
  summary : Option String := none
  review_summary : Option String := none
  deriving DecidableEq

/-- The error message of `invoke_intuitionist` for missing node ids. -/
def intuitionistMissingMsg (missingNodes : List String) : String :=
  "The following node ID(s) do not exist: " ++ jsJoin ", " missingNodes ++
    ". Please review the provided Knowledge Graph and choose valid IDs for your next action."

/-- Tool effect `invoke_intuitionist`: requires both node ids to exist;
on success the one-shot oracle reply `newConcept` is returned; the
engine state is not mutated either way (the conceptual leap only feeds
log streams owned by the UI). -/
def invokeIntuitionist (s : MissionState) (node_id_A node_id_B : String)
    (newConcept : String) : MissionState × ToolResponse :=
  match mapGet s.knowledgeGraphMap node_id_A, mapGet s.knowledgeGraphMap node_id_B with
  | some _, some _ => (s, { success := true, new_concept := some newConcept })
  | nodeA, nodeB =>
    let missingNodes :=
      (if nodeA.isNone then [node_id_A] else []) ++
        (if nodeB.isNone then [node_id_B] else [])
    (s, { success := false, error := some (intuitionistMissingMsg missingNodes) })

/-- The error message of `challenge_with_skeptic` for a missing node id. -/
def skepticMissingMsg (node_id : String) : String :=
  "The node ID '" ++ node_id ++
    "' does not exist. Please review the provided Knowledge Graph and choose a valid ID for your next action."

/-- Tool effect `challenge_with_skeptic`: requires the node to exist; the
critique is a one-shot oracle reply; the engine state is not mutated. -/
def challengeWithSkeptic (s : MissionState) (node_id_to_challenge : String)
    (critique : String) : MissionState × ToolResponse :=
  match mapGet s.knowledgeGraphMap node_id_to_challenge with
  | some _ => (s, { success := true, critique := some critique })
  | none => (s, { success := false, error := some (skepticMissingMsg node_id_to_challenge) })

/-- Tool effect `deploy_new_specialist_agent`: delegates to
`deployNewAgent` and unconditionally reports success. -/
def deployNewAgentTool (s : MissionState) (specialist_id mission_prompt : String)
    (required_tools : List String) (lifespan_cycles : Option ℤ) :
    MissionState × ToolResponse :=
  (deployNewAgent s specialist_id mission_prompt required_tools lifespan_cycles,
    { success := true
      message := some ("Agent " ++ specialist_id ++ " deployed successfully.") })

/-- Tool effect `request_formal_verification`: the synthetic verifier
draws `rand ∈ [0, 1)` and succeeds when `rand < max(0.1, 1 - len/1000)`;
`lineRand` stands for the random line number in the failure feedback.
A missing node mutates nothing, but the payload still carries
`success: true` with feedback `Verification failed: Node not found.`. -/
def requestFormalVerification (s : MissionState) (node_id proof_code : String)
    (rand : ℚ) (lineRand : ℕ) : MissionState × ToolResponse :=
  match mapGet s.knowledgeGraphMap node_id with
  | none =>
    (s, { success := true, verified := some false,
          feedback := some "Verification failed: Node not found." })
  | some nodeToVerify =>
    let complexity : ℚ := proof_code.length
    let successChance : ℚ := max (1/10) (1 - complexity / 1000)
    let succ := decide (rand < successChance)
    let feedback :=
      if succ then "Verification successful. The proof is logically sound."
      else "Verification failed. Found logical inconsistency near line " ++
        Nat.repr lineRand ++ "."
    ({ s with
        knowledgeGraphMap := mapSet s.knowledgeGraphMap node_id
          { nodeToVerify with verified := some succ } },
      { success := true, verified := some succ, feedback := some feedback })

/-- Tool effect `retire_agent`: delegates to `retireAgent` (idempotent on
an unknown id) and unconditionally reports success. -/
def retireAgentTool (s : MissionState) (agent_id : String) :
    MissionState × ToolResponse :=
  (retireAgent s agent_id,
    { success := true, message := some ("Agent " ++ agent_id ++ " retired.") })

/-- Tool effect `modify_agent_prompt`: overwrites the stored prompt
without validating that the agent exists, and reports success. -/
def modifyAgentPrompt (s : MissionState) (agent_id new_mission_prompt : String) :
    MissionState × ToolResponse :=
  ({ s with specialistPrompts := mapSet s.specialistPrompts agent_id new_mission_prompt },
    { success := true, message := some ("Agent " ++ agent_id ++ " was modified.") })

/-- Tool effect `execute_python_code`: the sandbox result is captured as
separate stdout/stderr text; the engine state is not mutated. -/
def executePythonCodeTool (s : MissionState) (stdoutText stderrText : String) :
    MissionState × ToolResponse :=
  (s, { success := true, stdout := some stdoutText, stderr := some stderrText })

/-- Tool effect `perform_web_search`: the grounded oracle reply (or the
fallback text `Web search failed.` when the call throws) is returned as
the summary; the engine state is not mutated. -/
def performWebSearchTool (s : MissionState) (summary : String) :
    MissionState × ToolResponse :=
  (s, { success := true, summary := some summary })

/-- Tool effect `request_peer_review`: when the reviewing agent has no
stored prompt the review text stays `Peer review failed to execute.`,
yet the payload reports success; no stored prompt is altered. -/
def requestPeerReview (s : MissionState) (reviewing_agent_id : String)
    (reviewText : String) : MissionState × ToolResponse :=
  let review :=
    match mapGet s.specialistPrompts reviewing_agent_id with
    | some _ => reviewText
    | none => "Peer review failed to execute."
  (s, { success := true, review_summary := some review })

/-! ### Stagnation and bias detector -/

/-- `CHAOS_INTERVENTION_THRESHOLD` (src/index.tsx). -/
def CHAOS_INTERVENTION_THRESHOLD : ℕ := 5

/-- `STRATEGIC_BIAS_WINDOW` (src/index.tsx). -/
def STRATEGIC_BIAS_WINDOW : ℕ := 8

/-- `STRATEGIC_BIAS_THRESHOLD` (src/index.tsx): the literal `0.6`.  As a
double it is within `2⁻⁵²` of `3/5`, and the only values it is compared
against are the exact multiples `count/8`, so the comparison is
identical to the exact rational one. -/
def STRATEGIC_BIAS_THRESHOLD : ℚ := 6/10

/-- The chaos-intervention annotation prepended to the architect request
(`runArchitectStep`): nonempty exactly when the stagnation counter has
reached `CHAOS_INTERVENTION_THRESHOLD`. -/
def chaosInterventionPrompt (stagnationCounter : ℕ) : String :=
  if CHAOS_INTERVENTION_THRESHOLD ≤ stagnationCounter then
    "\n**! CHAOS INTERVENTION ACTIVE !**\nStagnation level is critical (" ++
      Nat.repr stagnationCounter ++
      "). The current strategy is failing. You MUST propose a radical shift. Do not continue the current path. Consider one of the following:\n- Re-evaluate a previously invalidated or refuted node.\n- Force the exploration of the research vector with the LOWEST promise score.\n- Propose a completely new, high-risk, high-reward hypothesis that contradicts existing knowledge.\n- If the deadlock is profound and paradoxical, consider using the `invoke_intuitionist` tool as a final measure.\nYour next directive must reflect this radical change. Acknowledge this intervention in your reflection.\n"
  else ""

/-- `strategicFocusHistory.slice(-STRATEGIC_BIAS_WINDOW)`. -/
def biasWindowFocuses (history : List String) : List String :=
  history.drop (history.length - STRATEGIC_BIAS_WINDOW)

/-- The keys of the `focusCounts` record built by
`lastNFocuses.reduce(...)`, in insertion order (order of first
occurrence), as enumerated by `Object.entries`. -/
def focusCountKeys (l : List String) : List String :=
  l.foldl (fun acc f => if acc.contains f then acc else acc ++ [f]) []

/-- The bias warning of `renderArchitectDashboard`: examined only when
exactly `STRATEGIC_BIAS_WINDOW` samples are available, it names the
first label whose share of the window reaches
`STRATEGIC_BIAS_THRESHOLD`; `none` means the warning is hidden. -/
def biasWarning (history : List String) : Option String :=
  let lastNFocuses := biasWindowFocuses history
  if lastNFocuses.length = STRATEGIC_BIAS_WINDOW then
    (focusCountKeys lastNFocuses).find?
      (fun f =>
        decide (STRATEGIC_BIAS_THRESHOLD ≤
          (lastNFocuses.count f : ℚ) / STRATEGIC_BIAS_WINDOW))
  else none

/-! ### Architect synthesis payload and its application -/

/-- An entry of `strategic_planning.research_vectors`. -/
structure ResearchVector where
  description : String
  promise_score : ℚ
  deriving DecidableEq

/-- An entry of `knowledge_update`. -/
structure KnowledgeUpdateEntry where
  type : NodeType
  content : String
  relations : List String
  created_by : String
  deriving DecidableEq

/-- `strategic_planning`; `strategic_focus` is pushed onto the history
only when truthy, i.e. present and nonempty, modelled by `Option` plus
an emptiness check. -/
structure StrategicPlanning where
  strategic_focus : Option String
  research_vectors : List ResearchVector
  deriving DecidableEq

/-- `strategic_assessment`. -/
structure StrategicAssessment where
  stagnation_level : ℤ
  deriving DecidableEq

/-- The architect's final parsed payload (`SynthesizerResponse`). -/
structure SynthesizerResponse where
  knowledge_update : List KnowledgeUpdateEntry
  strategic_planning : StrategicPlanning
  strategic_assessment : Option StrategicAssessment
  synthesis_summary : Option String
  deriving DecidableEq

/-- The embedding oracle as seen by `parseAndApplyArchitectResponse`: a
failure (`none`) leaves the semantic index untouched. -/
def EmbedOracle : Type := String → Option (List ℚ)

/-- One iteration of the `knowledge_update` loop of
`parseAndApplyArchitectResponse`: allocate the id
`type.charAt(0) + counter++`, look up the research vector whose first 50
description characters occur in the content to inherit its promise
score (default `0.5`), insert the node, attribute it to its creator's
metric, and index its embedding when the oracle yields one. -/
def applyKnowledgeUpdate (vectors : List ResearchVector) (embed : EmbedOracle)
    (s : MissionState) (node : KnowledgeUpdateEntry) : MissionState :=
  let newNodeId := typeInitial node.type ++ Nat.repr s.knowledgeNodeCounter
  let associatedVector :=
    vectors.find? (fun v => jsIncludes node.content (jsTake v.description 50))
  let promiseScore := (associatedVector.map ResearchVector.promise_score).getD (1/2)
  let newNode : KnowledgeNode :=
    { id := newNodeId
      type := node.type
      content := node.content
      relations := node.relations
      createdBy := some node.created_by
      promiseScore := promiseScore }
  let metrics :=
    if node.created_by ≠ "" ∧ mapHas s.agentPerformanceMetrics node.created_by then
      match mapGet s.agentPerformanceMetrics node.created_by with
      | some m =>
        mapSet s.agentPerformanceMetrics node.created_by
          { nodesCreated := m.nodesCreated + 1
            totalPromise := m.totalPromise + promiseScore }
      | none => s.agentPerformanceMetrics
    else s.agentPerformanceMetrics
  { s with
    knowledgeNodeCounter := s.knowledgeNodeCounter + 1
    knowledgeGraphMap := mapSet s.knowledgeGraphMap newNodeId newNode
    agentPerformanceMetrics := metrics
    vectorKnowledgeBase :=
      match embed node.content with
      | some e => s.vectorKnowledgeBase ++ [⟨newNodeId, e⟩]
      | none => s.vectorKnowledgeBase
    currentMissionObjective :=
      if node.type = NodeType.DIRECTIVE then node.content
      else s.currentMissionObjective }

/-- The best research vector (`promise_score` strictly above the running
maximum, which starts at `-1`, so the first maximal entry wins). -/
def bestResearchVector (vectors : List ResearchVector) : Option String :=
  (vectors.foldl
    (fun (acc : Option String × ℚ) vec =>
      if acc.2 < vec.promise_score then (some vec.description, vec.promise_score) else acc)
    (none, -1)).1

/-- `parseAndApplyArchitectResponse(parsedResponse)`: push the strategic
focus, apply every knowledge update in order, adopt the best research
vector (when truthy), update the stagnation counter from the
assessment, and re-render (which recomputes every `invalidated` flag). -/
def parseAndApplyArchitectResponse (s : MissionState) (resp : SynthesizerResponse)
    (embed : EmbedOracle) : MissionState :=
  let s1 :=
    match resp.strategic_planning.strategic_focus with
    | some focus =>
      if focus = "" then s
      else { s with strategicFocusHistory := s.strategicFocusHistory ++ [focus] }
    | none => s
  let s2 := resp.knowledge_update.foldl
    (applyKnowledgeUpdate resp.strategic_planning.research_vectors embed) s1
  let s3 :=
    match bestResearchVector resp.strategic_planning.research_vectors with
    | some best => if best = "" then s2 else { s2 with activeResearchVector := best }
    | none => s2
  let s4 :=
    match resp.strategic_assessment with
    | some assessment =>
      { s3 with
        stagnationCounter :=
          if 0 < assessment.stagnation_level then s3.stagnationCounter + 1 else 0 }
    | none => s3
  renderKnowledgeGraph s4

/-- The ids allocated by the `knowledge_update` loop when it starts from
counter value `c`. -/
def assignedIds (c : ℕ) : List KnowledgeUpdateEntry → List String
  | [] => []
  | node :: rest => (typeInitial node.type ++ Nat.repr c) :: assignedIds (c + 1) rest

/-- The ids allocated across a whole sequence of architect payloads
starting from counter value `c`. -/
def allAssignedIds (c : ℕ) : List SynthesizerResponse → List String
  | [] => []
  | resp :: rest =>
    assignedIds c resp.knowledge_update ++
      allAssignedIds (c + resp.knowledge_update.length) rest

/-! ### Scheduler: stop, terminal marker, reset -/

/-- `stopSearch(isSuccess, proofContent)`: cancel the interval timer,
clear the running flag, and on success delete the persisted snapshot.
(The proof content is written by the caller before the call.) -/
def stopSearch (s : MissionState) (isSuccess : Bool) : MissionState :=
  { s with
    searchIntervalId := none
    isSearching := false
    hasSavedState := if isSuccess then false else s.hasSavedState }

/-- `parsedResponse.synthesis_summary || 'No summary provided.'`: an
absent or empty (falsy) summary is replaced by the default. -/
def effectiveSummary (synthesis_summary : Option String) : String :=
  match synthesis_summary with
  | some t => if t = "" then "No summary provided." else t
  | none => "No summary provided."

/-- The terminal-marker test of `runArchitectStep`:
`summary.trim().startsWith('PROOF COMPLETE:')`. -/
def isTerminalSummary (summary : String) : Bool :=
  jsStartsWith (jsTrim summary) "PROOF COMPLETE:"

/-- Helper for `jsReplaceFirst`: remove the first occurrence of `pat`. -/
def removeFirstChars (pat : List Char) : List Char → List Char
  | [] => []
  | x :: t =>
    if pat.isPrefixOf (x :: t) then (x :: t).drop pat.length
    else x :: removeFirstChars pat t

/-- Model of JavaScript `s.replace(pat, '')` for a string pattern, which
removes only the FIRST occurrence. -/
def jsReplaceFirst (s pat : String) : String :=
  ⟨removeFirstChars pat.data s.data⟩

/-- The tail of `runArchitectStep` after the final payload has been
parsed: on a terminal summary record the proof content and stop with
success (which also deletes the snapshot); otherwise log and apply the
payload. -/
def finalizeArchitectPayload (s : MissionState) (resp : SynthesizerResponse)
    (embed : EmbedOracle) : MissionState :=
  let summary := effectiveSummary resp.synthesis_summary
  if isTerminalSummary summary then
    stopSearch
      { s with finalProofContent := jsTrim (jsReplaceFirst summary "PROOF COMPLETE:") }
      true
  else parseAndApplyArchitectResponse s resp embed

/-- `clearAllNotebooks(fromNewButtonClick)`: the full reset.  Clears the
persisted snapshot when confirmed (`fromNewButtonClick`), retires every
dynamically deployed active agent, resets the graph, index, counters,
history and metrics, re-seeds the six permanent agents, and
re-initialises their metrics at zero. -/
def clearAllNotebooks (s : MissionState) (fromNewButtonClick : Bool) : MissionState :=
  let s0 := if fromNewButtonClick then { s with hasSavedState := false } else s
  let dynamicAgents := s0.activeSpecialists.filter (fun id => ¬ seedAgents.contains id)
  let s1 := dynamicAgents.foldl (fun st id => retireAgent st id) s0
  let s2 :=
    { s1 with
      finalProofContent := ""
      knowledgeGraphMap := []
      vectorKnowledgeBase := []
      knowledgeNodeCounter := 0
      cycleCounter := 0
      stagnationCounter := 0
      strategicFocusHistory := []
      agentPerformanceMetrics := []
      currentMissionObjective := "Awaiting directive from Metacognitive Architect..."
      activeResearchVector := "Awaiting strategic plan..."
      activeSpecialists := seedAgents }
  { s2 with
    agentPerformanceMetrics :=
      s2.activeSpecialists.foldl
        (fun m id => mapSet m id { nodesCreated := 0, totalPromise := 0 })
        s2.agentPerformanceMetrics }

/-! ### Concrete test fixtures

Concrete states and payloads used to instantiate the verified properties
on the examples named by the specification. -/

/-- A baseline mission state: the state right after a reset, stripped to
the components the core operations touch. -/
def testState : MissionState :=
  { knowledgeGraphMap := []
    knowledgeNodeCounter := 0
    cycleCounter := 0
    stagnationCounter := 0
    currentMissionObjective := "Awaiting directive from Metacognitive Architect..."
    activeResearchVector := "Awaiting strategic plan..."
    strategicFocusHistory := []
    agentPerformanceMetrics := []
    vectorKnowledgeBase := []
    specialistPrompts := []
    specialistMetadata := []
    activeSpecialists := seedAgents
    notebooks := seedAgents ++ ["synthesizer"]
    isSearching := false
    searchIntervalId := none
    hasSavedState := false
    finalProofContent := "" }

/-- A knowledge node whose only relation refutes the node itself. -/
def selfRefNode : KnowledgeNode :=
  { id := "H0"
    type := NodeType.HYPOTHESIS
    content := "self-defeating hypothesis"
    relations := ["REFUTES:H0"] }

/-- An architect payload carrying only a stagnation assessment. -/
def assessOnly (l : ℤ) : SynthesizerResponse :=
  { knowledge_update := []
    strategic_planning := { strategic_focus := none, research_vectors := [] }
    strategic_assessment := some { stagnation_level := l }
    synthesis_summary := none }

/-- An architect payload carrying only a synthesis summary. -/
def summaryOnly (t : String) : SynthesizerResponse :=
  { knowledge_update := []
    strategic_planning := { strategic_focus := none, research_vectors := [] }
    strategic_assessment := none
    synthesis_summary := some t }

/-- Stored node `B` of the semantic-search example. -/
def nodeB : KnowledgeNode :=
  { id := "B", type := NodeType.CONCEPT, content := "b", relations := [] }

/-- Stored node `C` of the semantic-search example. -/
def nodeC : KnowledgeNode :=
  { id := "C", type := NodeType.CONCEPT, content := "c", relations := [] }

/-- The knowledge graph of the semantic-search example. -/
def searchGraphBC : List (String × KnowledgeNode) :=
  [("B", nodeB), ("C", nodeC)]

/-- The vector index of the semantic-search example: `B ↦ [1,0]`,
`C ↦ [0,1]`. -/
def searchBaseBC : List VectorEntry :=
  [⟨"B", [1, 0]⟩, ⟨"C", [0, 1]⟩]

/-! ## Theorems

General helper lemmas, then one theorem per specified property (with a
witness or counterexample where called for). -/

theorem mapGet_nil {α : Type} (k : String) : mapGet ([] : List (String × α)) k = none := rfl

theorem contains_eq_decide_mem (l : List String) (a : String) :
    l.contains a = decide (a ∈ l) := by
  by_cases h : a ∈ l <;> simp [h]

theorem foldl_retire_activeSpecialists (ids : List String) (s : MissionState) :
    (ids.foldl (fun st id => retireAgent st id) s).activeSpecialists =
      s.activeSpecialists.filter (fun a => !(ids.contains a)) := by
  induction ids generalizing s with
  | nil => simp
  | cons i rest ih =>
    show (rest.foldl (fun st id => retireAgent st id) (retireAgent s i)).activeSpecialists = _
    rw [ih]
    show (s.activeSpecialists.filter (fun sid => sid ≠ i)).filter
        (fun a => !(rest.contains a)) = _
    rw [List.filter_filter]
    apply List.filter_congr
    intro a _
    by_cases hai : a = i <;> simp [hai]

theorem checkAgentLifecycles_activeSpecialists (s : MissionState) :
    (checkAgentLifecycles s).activeSpecialists =
      s.activeSpecialists.filter (fun id => !(isExpiredAgent s id)) := by
  unfold checkAgentLifecycles
  rw [foldl_retire_activeSpecialists]
  apply List.filter_congr
  intro a ha
  rw [contains_eq_decide_mem]
  by_cases hexp : isExpiredAgent s a = true
  · simp [List.mem_filter, ha, hexp]
  · simp only [Bool.not_eq_true] at hexp
    simp [List.mem_filter, hexp]

/-- Claim C5: the lifecycle check at the current cycle retires exactly the
active agents with a non-null lifespan whose age has reached that
lifespan; agents with a null lifespan (or no metadata) survive.  The
expired agents are collected in a full scan and retired only afterwards
(`checkAgentLifecycles` folds the retirements over the pre-scanned
list). -/
theorem lifecycle_check_retires_expired (s : MissionState) :
    (checkAgentLifecycles s).activeSpecialists =
      s.activeSpecialists.filter (fun id => !(isExpiredAgent s id)) ∧
    (∀ id meta, mapGet s.specialistMetadata id = some meta →
      meta.lifespan_cycles = none → id ∈ s.activeSpecialists →
      id ∈ (checkAgentLifecycles s).activeSpecialists) ∧
    (∀ id meta lifespan, mapGet s.specialistMetadata id = some meta →
      meta.lifespan_cycles = some lifespan → id ∈ s.activeSpecialists →
      lifespan ≤ s.cycleCounter - meta.creationCycle →
      id ∉ (checkAgentLifecycles s).activeSpecialists) := by
  refine ⟨checkAgentLifecycles_activeSpecialists s, ?_, ?_⟩
  · intro id meta hmeta hnull hmem
    rw [checkAgentLifecycles_activeSpecialists]
    rw [List.mem_filter]
    refine ⟨hmem, ?_⟩
    simp [isExpiredAgent, hmeta, hnull]
  · intro id meta lifespan hmeta hsome hmem hage
    rw [checkAgentLifecycles_activeSpecialists]
    rw [List.mem_filter]
    intro ⟨_, hkeep⟩
    simp [isExpiredAgent, hmeta, hsome, hage] at hkeep

/-- Witness for C5 at the specification's concrete example: at
`cycleCounter = 5`, the agent created at cycle 2 with lifespan 3 is
retired by the check, the one with lifespan 4 is kept, and an agent with
a null lifespan is kept. -/
theorem lifecycle_check_retires_expired_witness :
    ("tf-a" ∉ (checkAgentLifecycles
        { testState with
          cycleCounter := 5
          activeSpecialists := ["tf-a", "tf-b", "specialist-4"]
          specialistMetadata :=
            [("tf-a", { required_tools := [], lifespan_cycles := some 3, creationCycle := 2 }),
             ("tf-b", { required_tools := [], lifespan_cycles := some 4, creationCycle := 2 }),
             ("specialist-4", { required_tools := [], lifespan_cycles := none, creationCycle := 0 })] }).activeSpecialists) ∧
    ("tf-b" ∈ (checkAgentLifecycles
        { testState with
          cycleCounter := 5
          activeSpecialists := ["tf-a", "tf-b", "specialist-4"]
          specialistMetadata :=
            [("tf-a", { required_tools := [], lifespan_cycles := some 3, creationCycle := 2 }),
             ("tf-b", { required_tools := [], lifespan_cycles := some 4, creationCycle := 2 }),
             ("specialist-4", { required_tools := [], lifespan_cycles := none, creationCycle := 0 })] }).activeSpecialists) ∧
    ("specialist-4" ∈ (checkAgentLifecycles
        { testState with
          cycleCounter := 5
          activeSpecialists := ["tf-a", "tf-b", "specialist-4"]
          specialistMetadata :=
            [("tf-a", { required_tools := [], lifespan_cycles := some 3, creationCycle := 2 }),
             ("tf-b", { required_tools := [], lifespan_cycles := some 4, creationCycle := 2 }),
             ("specialist-4", { required_tools := [], lifespan_cycles := none, creationCycle := 0 })] }).activeSpecialists) := by
  refine ⟨?_, ?_, ?_⟩
  · exact (lifecycle_check_retires_expired _).2.2 "tf-a"
      { required_tools := [], lifespan_cycles := some 3, creationCycle := 2 } 3
      (by decide) rfl (by decide) (by decide)
  · rw [(lifecycle_check_retires_expired _).1]
    decide
  · exact (lifecycle_check_retires_expired _).2.1 "specialist-4"
      { required_tools := [], lifespan_cycles := none, creationCycle := 0 }
      (by decide) rfl (by decide)


theorem foldl_retire_hasSavedState (ids : List String) (s : MissionState) :
    (ids.foldl (fun st id => retireAgent st id) s).hasSavedState = s.hasSavedState := by
  induction ids generalizing s with
  | nil => rfl
  | cons i rest ih => exact ih (retireAgent s i)

/-- Claim C9: a confirmed reset (`clearAllNotebooks(true)`) empties the
Knowledge Graph and the vector index, zeroes the node-id, cycle and
stagnation counters, clears the focus history, restores the active
registry to exactly the six permanent seed agents with metrics
re-created at zero, and deletes the persisted snapshot. -/
theorem reset_clears_mission_state (s : MissionState) :
    (clearAllNotebooks s true).knowledgeGraphMap = [] ∧
    (clearAllNotebooks s true).knowledgeNodeCounter = 0 ∧
    (clearAllNotebooks s true).cycleCounter = 0 ∧
    (clearAllNotebooks s true).stagnationCounter = 0 ∧
    (clearAllNotebooks s true).strategicFocusHistory = [] ∧
    (clearAllNotebooks s true).vectorKnowledgeBase = [] ∧
    (clearAllNotebooks s true).activeSpecialists = seedAgents ∧
    (clearAllNotebooks s true).agentPerformanceMetrics =
      seedAgents.map (fun id => (id, { nodesCreated := 0, totalPromise := 0 })) ∧
    (clearAllNotebooks s true).hasSavedState = false := by
  refine ⟨?_, ?_, ?_, ?_, ?_, ?_, ?_, ?_, ?_⟩
  · simp [clearAllNotebooks]
  · simp [clearAllNotebooks]
  · simp [clearAllNotebooks]
  · simp [clearAllNotebooks]
  · simp [clearAllNotebooks]
  · simp [clearAllNotebooks]
  · simp [clearAllNotebooks]
  · simp [clearAllNotebooks]
    rfl
  · simp [clearAllNotebooks, foldl_retire_hasSavedState]

/-- Claim C10: invoking the deploy-agent tool effect with an agent id
that already has a notebook leaves the whole state unchanged
(`deployNewAgent` returns early), yet the tool response fed back to the
oracle still reports success with a "deployed successfully" message, so
the oracle is never told the deployment was a no-op. -/
theorem deploy_existing_agent_silent_success (s : MissionState)
    (id prompt : String) (tools : List String) (lifespan : Option ℤ)
    (h : s.notebooks.contains id = true) :
    (deployNewAgentTool s id prompt tools lifespan).1 = s ∧
    (deployNewAgentTool s id prompt tools lifespan).2.success = true ∧
    (deployNewAgentTool s id prompt tools lifespan).2.message =
      some ("Agent " ++ id ++ " deployed successfully.") := by
  unfold deployNewAgentTool deployNewAgent
  rw [h]
  exact ⟨rfl, rfl, rfl⟩

/-- Witness for C10: redeploying the permanent agent `specialist-1` is a
no-op that still reports success. -/
theorem deploy_existing_agent_silent_success_witness :
    (deployNewAgentTool testState "specialist-1" "new prompt" [] none).1 = testState ∧
    (deployNewAgentTool testState "specialist-1" "new prompt" [] none).2.success = true ∧
    (deployNewAgentTool testState "specialist-1" "new prompt" [] none).2.message =
      some ("Agent " ++ "specialist-1" ++ " deployed successfully.") :=
  deploy_existing_agent_silent_success testState "specialist-1" "new prompt" [] none
    (by decide)

theorem applyKnowledgeUpdate_stagnationCounter (vectors : List ResearchVector)
    (embed : EmbedOracle) (s : MissionState) (u : KnowledgeUpdateEntry) :
    (applyKnowledgeUpdate vectors embed s u).stagnationCounter = s.stagnationCounter := rfl

theorem foldl_applyKnowledgeUpdate_stagnationCounter (vectors : List ResearchVector)
    (embed : EmbedOracle) (us : List KnowledgeUpdateEntry) (s : MissionState) :
    (us.foldl (applyKnowledgeUpdate vectors embed) s).stagnationCounter =
      s.stagnationCounter := by
  induction us generalizing s with
  | nil => rfl
  | cons u rest ih =>
    exact (ih (applyKnowledgeUpdate vectors embed s u)).trans rfl

theorem parseAndApply_stagnationCounter (s : MissionState)
    (resp : SynthesizerResponse) (embed : EmbedOracle) (a : StrategicAssessment)
    (ha : resp.strategic_assessment = some a) :
    (parseAndApplyArchitectResponse s resp embed).stagnationCounter =
      if 0 < a.stagnation_level then s.stagnationCounter + 1 else 0 := by
  unfold parseAndApplyArchitectResponse
  rw [ha]
  show (renderKnowledgeGraph _).stagnationCounter = _
  have hrender : ∀ st : MissionState, (renderKnowledgeGraph st).stagnationCounter =
      st.stagnationCounter := fun _ => rfl
  rw [hrender]
  show (if 0 < a.stagnation_level then _ + 1 else 0) = _
  have h3 : ∀ st : MissionState,
      (match bestResearchVector resp.strategic_planning.research_vectors with
        | some best => if best = "" then st else { st with activeResearchVector := best }
        | none => st).stagnationCounter = st.stagnationCounter := by
    intro st
    cases bestResearchVector resp.strategic_planning.research_vectors with
    | none => rfl
    | some best =>
      by_cases hb : best = ""
      · simp [hb]
      · simp [hb]
  rw [h3, foldl_applyKnowledgeUpdate_stagnationCounter]
  have h1 : (match resp.strategic_planning.strategic_focus with
      | some focus =>
        if focus = "" then s
        else { s with strategicFocusHistory := s.strategicFocusHistory ++ [focus] }
      | none => s).stagnationCounter = s.stagnationCounter := by
    cases resp.strategic_planning.strategic_focus with
    | none => rfl
    | some focus =>
      by_cases hf : focus = ""
      · simp [hf]
      · simp [hf]
  rw [h1]

/-- Claim C6: the stagnation counter increments by one whenever the
payload's `stagnation_level` is positive and resets to zero when it is
not; in particular levels `2, 0, 1` applied from counter `0` yield the
counter values `1, 0, 1`.  Once the counter reaches
`CHAOS_INTERVENTION_THRESHOLD`, the next architect request carries a
nonempty chaos-intervention annotation (a pure function of the counter,
with no state change); below the threshold the annotation is empty. -/
theorem stagnation_counter_and_chaos_trigger :
    (∀ (s : MissionState) (resp : SynthesizerResponse) (embed : EmbedOracle)
        (a : StrategicAssessment), resp.strategic_assessment = some a →
      (parseAndApplyArchitectResponse s resp embed).stagnationCounter =
        if 0 < a.stagnation_level then s.stagnationCounter + 1 else 0) ∧
    (∀ c : ℕ, chaosInterventionPrompt c ≠ "" ↔ CHAOS_INTERVENTION_THRESHOLD ≤ c) ∧
    (∀ (s : MissionState) (embed : EmbedOracle), s.stagnationCounter = 0 →
      (parseAndApplyArchitectResponse s (assessOnly 2) embed).stagnationCounter = 1 ∧
      (parseAndApplyArchitectResponse
        (parseAndApplyArchitectResponse s (assessOnly 2) embed)
        (assessOnly 0) embed).stagnationCounter = 0 ∧
      (parseAndApplyArchitectResponse
        (parseAndApplyArchitectResponse
          (parseAndApplyArchitectResponse s (assessOnly 2) embed)
          (assessOnly 0) embed)
        (assessOnly 1) embed).stagnationCounter = 1) := by
  refine ⟨fun s resp embed a ha => parseAndApply_stagnationCounter s resp embed a ha,
    ?_, ?_⟩
  · intro c
    unfold chaosInterventionPrompt
    by_cases hc : CHAOS_INTERVENTION_THRESHOLD ≤ c
    · rw [if_pos hc]
      refine ⟨fun _ => hc, fun _ habs => ?_⟩
      have hd := congrArg String.data habs
      rw [String.data_append, String.data_append] at hd
      have h1 : ("\n**! CHAOS INTERVENTION ACTIVE !**\nStagnation level is critical (" : String).data = [] :=
        (List.append_eq_nil.mp (List.append_eq_nil.mp hd).1).1
      exact absurd h1 (by decide)
    · rw [if_neg hc]
      simp [hc]
  · intro s embed h0
    have h2 := parseAndApply_stagnationCounter s (assessOnly 2) embed
      { stagnation_level := 2 } rfl
    rw [h0] at h2
    norm_num at h2
    have hz := parseAndApply_stagnationCounter
      (parseAndApplyArchitectResponse s (assessOnly 2) embed) (assessOnly 0) embed
      { stagnation_level := 0 } rfl
    norm_num at hz
    have h1 := parseAndApply_stagnationCounter
      (parseAndApplyArchitectResponse
        (parseAndApplyArchitectResponse s (assessOnly 2) embed) (assessOnly 0) embed)
      (assessOnly 1) embed { stagnation_level := 1 } rfl
    rw [hz] at h1
    norm_num at h1
    exact ⟨h2, hz, h1⟩

/-- Witness for C6 at a concrete state: applying assessments with
stagnation levels `2`, `0`, `1` to the reset state yields the counter
sequence `1, 0, 1`. -/
theorem stagnation_counter_and_chaos_trigger_witness :
    (parseAndApplyArchitectResponse testState (assessOnly 2)
        (fun _ => none)).stagnationCounter = 1 ∧
    (parseAndApplyArchitectResponse
        (parseAndApplyArchitectResponse testState (assessOnly 2) (fun _ => none))
        (assessOnly 0) (fun _ => none)).stagnationCounter = 0 ∧
    (parseAndApplyArchitectResponse
        (parseAndApplyArchitectResponse
          (parseAndApplyArchitectResponse testState (assessOnly 2) (fun _ => none))
          (assessOnly 0) (fun _ => none))
        (assessOnly 1) (fun _ => none)).stagnationCounter = 1 :=
  stagnation_counter_and_chaos_trigger.2.2 testState (fun _ => none) rfl

theorem parseAndApply_proj {α : Type} (f : MissionState → α)
    (s : MissionState) (resp : SynthesizerResponse) (embed : EmbedOracle)
    (h1 : ∀ (st : MissionState) (focus : String),
      f { st with strategicFocusHistory := st.strategicFocusHistory ++ [focus] } = f st)
    (h2 : ∀ (st : MissionState) (u : KnowledgeUpdateEntry),
      f (applyKnowledgeUpdate resp.strategic_planning.research_vectors embed st u) = f st)
    (h3 : ∀ (st : MissionState) (v : String),
      f { st with activeResearchVector := v } = f st)
    (h4 : ∀ (st : MissionState) (n : ℕ),
      f { st with stagnationCounter := n } = f st)
    (h5 : ∀ st : MissionState, f (renderKnowledgeGraph st) = f st) :
    f (parseAndApplyArchitectResponse s resp embed) = f s := by
  unfold parseAndApplyArchitectResponse
  rw [h5]
  have hfold : ∀ (us : List KnowledgeUpdateEntry) (st : MissionState),
      f (us.foldl (applyKnowledgeUpdate resp.strategic_planning.research_vectors embed) st) =
        f st := by
    intro us
    induction us with
    | nil => intro st; rfl
    | cons u rest ih =>
      intro st
      exact (ih (applyKnowledgeUpdate resp.strategic_planning.research_vectors embed st u)).trans
        (h2 st u)
  have hstep4 : ∀ st : MissionState,
      f (match resp.strategic_assessment with
        | some assessment =>
          { st with
            stagnationCounter :=
              if 0 < assessment.stagnation_level then st.stagnationCounter + 1 else 0 }
        | none => st) = f st := by
    intro st
    cases resp.strategic_assessment with
    | none => rfl
    | some assessment => exact h4 st _
  have hstep3 : ∀ st : MissionState,
      f (match bestResearchVector resp.strategic_planning.research_vectors with
        | some best => if best = "" then st else { st with activeResearchVector := best }
        | none => st) = f st := by
    intro st
    cases bestResearchVector resp.strategic_planning.research_vectors with
    | none => rfl
    | some best =>
      show f (if best = "" then st else { st with activeResearchVector := best }) = f st
      by_cases hb : best = ""
      · rw [if_pos hb]
      · rw [if_neg hb]; exact h3 st best
  have hstep1 :
      f (match resp.strategic_planning.strategic_focus with
        | some focus =>
          if focus = "" then s
          else { s with strategicFocusHistory := s.strategicFocusHistory ++ [focus] }
        | none => s) = f s := by
    cases resp.strategic_planning.strategic_focus with
    | none => rfl
    | some focus =>
      show f (if focus = "" then s
        else { s with strategicFocusHistory := s.strategicFocusHistory ++ [focus] }) = f s
      by_cases hfo : focus = ""
      · rw [if_pos hfo]
      · rw [if_neg hfo]; exact h1 s focus
  rw [hstep4, hstep3, hfold, hstep1]

/-- Claim C8 (amended): when the architect's final payload has a summary
whose TRIMMED text begins with the terminal marker `PROOF COMPLETE:`,
the mission completes: the interval timer is cancelled, the running flag
is cleared, and the persisted snapshot is deleted; when the trimmed
summary does not begin with the marker, the payload is applied normally
and none of those three components change. -/
theorem terminal_marker_transition (s : MissionState) (resp : SynthesizerResponse)
    (embed : EmbedOracle) :
    (isTerminalSummary (effectiveSummary resp.synthesis_summary) = true →
      (finalizeArchitectPayload s resp embed).isSearching = false ∧
      (finalizeArchitectPayload s resp embed).searchIntervalId = none ∧
      (finalizeArchitectPayload s resp embed).hasSavedState = false) ∧
    (isTerminalSummary (effectiveSummary resp.synthesis_summary) = false →
      finalizeArchitectPayload s resp embed = parseAndApplyArchitectResponse s resp embed ∧
      (finalizeArchitectPayload s resp embed).isSearching = s.isSearching ∧
      (finalizeArchitectPayload s resp embed).searchIntervalId = s.searchIntervalId ∧
      (finalizeArchitectPayload s resp embed).hasSavedState = s.hasSavedState) := by
  have hunfold : finalizeArchitectPayload s resp embed =
      if isTerminalSummary (effectiveSummary resp.synthesis_summary) then
        stopSearch
          { s with
            finalProofContent :=
              jsTrim (jsReplaceFirst (effectiveSummary resp.synthesis_summary)
                "PROOF COMPLETE:") }
          true
      else parseAndApplyArchitectResponse s resp embed := rfl
  constructor
  · intro ht
    rw [hunfold, if_pos ht]
    exact ⟨rfl, rfl, rfl⟩
  · intro hf
    have heq : finalizeArchitectPayload s resp embed =
        parseAndApplyArchitectResponse s resp embed := by
      rw [hunfold, if_neg (by rw [hf]; exact Bool.false_ne_true)]
    refine ⟨heq, ?_, ?_, ?_⟩
    · rw [heq]
      exact parseAndApply_proj (fun st => st.isSearching) s resp embed
        (fun _ _ => rfl) (fun _ _ => rfl) (fun _ _ => rfl) (fun _ _ => rfl) (fun _ => rfl)
    · rw [heq]
      exact parseAndApply_proj (fun st => st.searchIntervalId) s resp embed
        (fun _ _ => rfl) (fun _ _ => rfl) (fun _ _ => rfl) (fun _ _ => rfl) (fun _ => rfl)
    · rw [heq]
      exact parseAndApply_proj (fun st => st.hasSavedState) s resp embed
        (fun _ _ => rfl) (fun _ _ => rfl) (fun _ _ => rfl) (fun _ _ => rfl) (fun _ => rfl)

/-- Witness for C8 (amended): from a running state with a persisted
snapshot, a summary beginning with the marker completes the mission, and
the summary `keep going` leaves the scheduler fields unchanged. -/
theorem terminal_marker_transition_witness :
    ((finalizeArchitectPayload
        { testState with isSearching := true, searchIntervalId := some 1, hasSavedState := true }
        (summaryOnly "PROOF COMPLETE: done") (fun _ => none)).isSearching = false ∧
      (finalizeArchitectPayload
        { testState with isSearching := true, searchIntervalId := some 1, hasSavedState := true }
        (summaryOnly "PROOF COMPLETE: done") (fun _ => none)).searchIntervalId = none ∧
      (finalizeArchitectPayload
        { testState with isSearching := true, searchIntervalId := some 1, hasSavedState := true }
        (summaryOnly "PROOF COMPLETE: done") (fun _ => none)).hasSavedState = false) ∧
    (finalizeArchitectPayload
        { testState with isSearching := true, searchIntervalId := some 1, hasSavedState := true }
        (summaryOnly "keep going") (fun _ => none)).isSearching = true :=
  ⟨(terminal_marker_transition _ _ _).1 (by decide),
    ((terminal_marker_transition
        { testState with isSearching := true, searchIntervalId := some 1, hasSavedState := true }
        (summaryOnly "keep going") (fun _ => none)).2 (by decide)).2.1.trans rfl⟩

/-- Counterexample for C8 as stated: the summary
`" PROOF COMPLETE: done"` does NOT begin with the terminal marker (it
begins with a space), yet because the source first trims the summary the
mission still transitions to Completed: the running flag is cleared and
the persisted snapshot is deleted. -/
theorem terminal_marker_counterexample :
    jsStartsWith " PROOF COMPLETE: done" "PROOF COMPLETE:" = false ∧
    (finalizeArchitectPayload
        { testState with isSearching := true, searchIntervalId := some 1, hasSavedState := true }
        (summaryOnly " PROOF COMPLETE: done") (fun _ => none)).isSearching = false ∧
    (finalizeArchitectPayload
        { testState with isSearching := true, searchIntervalId := some 1, hasSavedState := true }
        (summaryOnly " PROOF COMPLETE: done") (fun _ => none)).hasSavedState = false := by
  exact ⟨by decide, by decide, by decide⟩

/-- Claim C2 (amended): after `renderKnowledgeGraph`, a node's
`invalidated` flag equals `computeInvalidated` of the current node list,
which holds iff SOME node — possibly the node itself — carries a
relation whose action segment (the text before the first `:`),
uppercased, is `REFUTES` or `INVALIDATES` and whose target segment is
that node's id.  Adding a node none of whose relations invalidate a
given existing node never changes that node's recomputed flag. -/
theorem invalidation_recomputed_from_relations :
    (∀ (s : MissionState) (p : String × KnowledgeNode),
      p ∈ (renderKnowledgeGraph s).knowledgeGraphMap →
      p.2.invalidated =
        some (computeInvalidated (s.knowledgeGraphMap.map Prod.snd) p.2.id)) ∧
    (∀ (nodes : List KnowledgeNode) (nodeId : String),
      computeInvalidated nodes nodeId = true ↔
        ∃ n ∈ nodes, ∃ rel ∈ n.relations, invalidatesTarget rel nodeId = true) ∧
    (∀ (nodes : List KnowledgeNode) (m x : KnowledgeNode), x ∈ nodes →
      (∀ rel ∈ m.relations, invalidatesTarget rel x.id = false) →
      computeInvalidated (nodes ++ [m]) x.id = computeInvalidated nodes x.id) := by
  refine ⟨?_, ?_, ?_⟩
  · intro s p hp
    unfold renderKnowledgeGraph at hp
    simp only [List.mem_map] at hp
    obtain ⟨q, _, hq⟩ := hp
    rw [← hq]
  · intro nodes nodeId
    simp [computeInvalidated, List.any_eq_true]
  · intro nodes m x _ hm
    unfold computeInvalidated
    rw [List.any_append]
    have : [m].any (fun n => n.relations.any (fun rel => invalidatesTarget rel x.id)) =
        false := by
      simp only [List.any_cons, List.any_nil, Bool.or_false]
      rw [List.any_eq_false]
      intro rel hrel
      simp [hm rel hrel]
    rw [this, Bool.or_false]

/-- Witness for C2 (amended): for a node `T1` refuted by a second node
`R2` via `REFUTES:T1`, the recomputed flag of `T1` is `true` and that of
`R2` is `false`; appending a node with relation `SUPPORTS:T1` changes
neither flag. -/
theorem invalidation_recomputed_from_relations_witness :
    computeInvalidated
      [{ id := "T1", type := NodeType.THEOREM, content := "t", relations := [] },
       { id := "R2", type := NodeType.REFUTATION, content := "r", relations := ["REFUTES:T1"] }]
      "T1" = true ∧
    computeInvalidated
      ([{ id := "T1", type := NodeType.THEOREM, content := "t", relations := [] },
        { id := "R2", type := NodeType.REFUTATION, content := "r", relations := ["REFUTES:T1"] }] ++
       [{ id := "C3", type := NodeType.CONCEPT, content := "c", relations := ["SUPPORTS:T1"] }])
      "T1" =
      computeInvalidated
        [{ id := "T1", type := NodeType.THEOREM, content := "t", relations := [] },
         { id := "R2", type := NodeType.REFUTATION, content := "r", relations := ["REFUTES:T1"] }]
        "T1" := by
  constructor
  · exact (invalidation_recomputed_from_relations.2.1 _ "T1").mpr
      ⟨{ id := "R2", type := NodeType.REFUTATION, content := "r", relations := ["REFUTES:T1"] },
        List.mem_cons_of_mem _ (List.mem_cons_self _ _),
        "REFUTES:T1", List.mem_cons_self _ _, by decide⟩
  · exact invalidation_recomputed_from_relations.2.2 _ _
      { id := "T1", type := NodeType.THEOREM, content := "t", relations := [] }
      (List.mem_cons_self _ _) (by decide)

/-- Counterexample for C2 as stated: a node whose own relation list
contains `REFUTES:<its own id>` is flagged invalidated by the code's
recomputation (which scans ALL nodes, the node itself included), whereas
no OTHER node carries a refuting relation, so the claim's
characterisation gives `false`. -/
theorem invalidation_self_reference_counterexample :
    computeInvalidated [selfRefNode] "H0" = true ∧
    specInvalidatedByOther [selfRefNode] "H0" = false := by
  exact ⟨by decide, by decide⟩

theorem mem_focusCountKeys_aux (l : List String) :
    ∀ (acc : List String) (x : String),
      x ∈ l.foldl (fun acc f => if acc.contains f then acc else acc ++ [f]) acc ↔
        x ∈ acc ∨ x ∈ l := by
  induction l with
  | nil => intro acc x; simp
  | cons f t ih =>
    intro acc x
    rw [List.foldl_cons, ih]
    by_cases hf : acc.contains f
    · rw [if_pos hf]
      rw [contains_eq_decide_mem] at hf
      have hfa : f ∈ acc := of_decide_eq_true hf
      simp only [List.mem_cons]
      constructor
      · rintro (h | h)
        · exact Or.inl h
        · exact Or.inr (Or.inr h)
      · rintro (h | h | h)
        · exact Or.inl h
        · exact Or.inl (h ▸ hfa)
        · exact Or.inr h
    · rw [if_neg hf]
      simp only [List.mem_append, List.mem_cons, List.mem_singleton]
      tauto

theorem mem_focusCountKeys (l : List String) (x : String) :
    x ∈ focusCountKeys l ↔ x ∈ l := by
  unfold focusCountKeys
  rw [mem_focusCountKeys_aux]
  simp

theorem count_pair_le_length (l : List String) (f g : String) (hfg : f ≠ g) :
    l.count f + l.count g ≤ l.length := by
  induction l with
  | nil => simp
  | cons x t ih =>
    rw [List.count_cons, List.count_cons, List.length_cons]
    by_cases hf : x = f
    · have hg : ¬ (x = g) := fun h => hfg (hf ▸ h ▸ rfl)
      simp only [hf, beq_self_eq_true, if_true]
      rw [if_neg (by simpa using fun h => hg (hf ▸ h))]
      omega
    · rw [if_neg (by simpa using fun h => hf h)]
      by_cases hg : x = g
      · simp only [hg, beq_self_eq_true, if_true]
        omega
      · rw [if_neg (by simpa using fun h => hg h)]
        omega

theorem bias_threshold_iff (c : ℕ) :
    (STRATEGIC_BIAS_THRESHOLD ≤ (c : ℚ) / (STRATEGIC_BIAS_WINDOW : ℕ)) ↔ 5 ≤ c := by
  simp only [STRATEGIC_BIAS_THRESHOLD, STRATEGIC_BIAS_WINDOW]
  push_cast
  constructor
  · intro h
    by_contra hlt
    push_neg at hlt
    interval_cases c <;> norm_num at h
  · intro h
    have h5 : (5 : ℚ) ≤ (c : ℚ) := by exact_mod_cast h
    calc (6 : ℚ) / 10 ≤ 5 / 8 := by norm_num
    _ ≤ (c : ℚ) / 8 := by gcongr

theorem biasWindow_length (history : List String) :
    (biasWindowFocuses history).length =
      history.length - (history.length - STRATEGIC_BIAS_WINDOW) := by
  unfold biasWindowFocuses
  exact List.length_drop _ _

/-- Claim C7: the bias detector examines the last 8 strategic-focus
labels.  With fewer than 8 samples it never raises a warning; with at
least 8, it names label `f` iff `f` occurs in the window and its share
of the 8 examined labels reaches the 60% threshold (which, for integer
counts out of 8, means at least 5 occurrences). -/
theorem bias_warning_window (history : List String) :
    (history.length < STRATEGIC_BIAS_WINDOW → biasWarning history = none) ∧
    (∀ f, biasWarning history = some f ↔
      STRATEGIC_BIAS_WINDOW ≤ history.length ∧
      f ∈ biasWindowFocuses history ∧
      STRATEGIC_BIAS_THRESHOLD ≤
        ((biasWindowFocuses history).count f : ℚ) / (STRATEGIC_BIAS_WINDOW : ℕ)) := by
  have hwin : (biasWindowFocuses history).length =
      history.length - (history.length - STRATEGIC_BIAS_WINDOW) :=
    biasWindow_length history
  have hw8 : STRATEGIC_BIAS_WINDOW = 8 := rfl
  constructor
  · intro hlt
    unfold biasWarning
    rw [if_neg]
    omega
  · intro f
    constructor
    · intro hsome
      unfold biasWarning at hsome
      by_cases hl : (biasWindowFocuses history).length = STRATEGIC_BIAS_WINDOW
      · rw [if_pos hl] at hsome
        have hp0 := List.find?_some hsome
        simp only [] at hp0
        have hp := of_decide_eq_true hp0
        have hmem : f ∈ biasWindowFocuses history :=
          (mem_focusCountKeys _ _).mp (List.mem_of_find?_eq_some hsome)
        refine ⟨by omega, hmem, hp⟩
      · rw [if_neg hl] at hsome
        cases hsome
    · rintro ⟨hge, hmem, hthr⟩
      unfold biasWarning
      have hl : (biasWindowFocuses history).length = STRATEGIC_BIAS_WINDOW := by omega
      rw [if_pos hl]
      have hex : ∃ g, (focusCountKeys (biasWindowFocuses history)).find?
          (fun f => decide (STRATEGIC_BIAS_THRESHOLD ≤
            ((biasWindowFocuses history).count f : ℚ) / (STRATEGIC_BIAS_WINDOW : ℕ))) =
          some g := by
        rw [← Option.isSome_iff_exists, List.find?_isSome]
        exact ⟨f, (mem_focusCountKeys _ _).mpr hmem, decide_eq_true hthr⟩
      obtain ⟨g, hg⟩ := hex
      rw [hg]
      have hg0 := List.find?_some hg
      simp only [] at hg0
      have hgthr := of_decide_eq_true hg0
      have hcf : 5 ≤ (biasWindowFocuses history).count f := (bias_threshold_iff _).mp hthr
      have hcg : 5 ≤ (biasWindowFocuses history).count g := (bias_threshold_iff _).mp hgthr
      have hfg : g = f := by
        by_contra hne
        have hsum := count_pair_le_length (biasWindowFocuses history) f g
          (fun h => hne h.symm)
        omega
      rw [hfg]

/-- Witness for C7 at the specification's concrete example: 8 focus
labels of which 5 are `ALGEBRA` (62.5%) raise a warning naming
`ALGEBRA`; 7 samples raise no warning even when all agree. -/
theorem bias_warning_window_witness :
    biasWarning ["ALGEBRA", "TOPOLOGY", "ALGEBRA", "LOGIC",
      "ALGEBRA", "ALGEBRA", "GEOMETRY", "ALGEBRA"] = some "ALGEBRA" ∧
    biasWarning ["ALGEBRA", "ALGEBRA", "ALGEBRA", "ALGEBRA",
      "ALGEBRA", "ALGEBRA", "ALGEBRA"] = none := by
  constructor
  · refine ((bias_warning_window _).2 "ALGEBRA").mpr ⟨by decide, by decide, ?_⟩
    rw [show (biasWindowFocuses ["ALGEBRA", "TOPOLOGY", "ALGEBRA", "LOGIC",
      "ALGEBRA", "ALGEBRA", "GEOMETRY", "ALGEBRA"]).count "ALGEBRA" = 5 from by decide]
    exact (bias_threshold_iff 5).mpr (by norm_num)
  · exact (bias_warning_window _).1 (by decide)

theorem containsChars_self_append (x r : List Char) :
    containsChars x (x ++ r) = true := by
  cases hxr : x ++ r with
  | nil =>
    have hx : x = [] := (List.append_eq_nil.mp hxr).1
    subst hx
    rfl
  | cons y t =>
    show (x.isPrefixOf (y :: t) || containsChars x t) = true
    have hpre : x.isPrefixOf (x ++ r) = true :=
      List.isPrefixOf_iff_prefix.mpr (List.prefix_append x r)
    rw [hxr] at hpre
    rw [hpre, Bool.true_or]

theorem containsChars_self (x : List Char) : containsChars x x = true := by
  have := containsChars_self_append x []
  rwa [List.append_nil] at this

theorem containsChars_append_right (need p l : List Char)
    (h : containsChars need l = true) : containsChars need (p ++ l) = true := by
  induction p with
  | nil => exact h
  | cons a p ih =>
    show (need.isPrefixOf (a :: (p ++ l)) || containsChars need (p ++ l)) = true
    rw [ih, Bool.or_true]

theorem containsChars_append_left (need l r : List Char)
    (h : containsChars need l = true) : containsChars need (l ++ r) = true := by
  induction l with
  | nil =>
    have hx : need = [] := by
      have : need.isEmpty = true := h
      simpa [List.isEmpty_iff] using this
    subst hx
    cases r with
    | nil => rfl
    | cons y t =>
      show (List.isPrefixOf [] (y :: t) || _) = true
      rw [show List.isPrefixOf ([] : List Char) (y :: t) = true from rfl, Bool.true_or]
  | cons x t ih =>
    have h' : (need.isPrefixOf (x :: t) || containsChars need t) = true := h
    rcases Bool.or_eq_true_iff.mp h' with hpre | hrec
    · show (need.isPrefixOf (x :: (t ++ r)) || containsChars need (t ++ r)) = true
      have h1 : need <+: (x :: t) := List.isPrefixOf_iff_prefix.mp hpre
      have h2 : need <+: x :: (t ++ r) := by
        have := h1.trans (List.prefix_append (x :: t) r)
        simpa using this
      rw [List.isPrefixOf_iff_prefix.mpr h2, Bool.true_or]
    · show (need.isPrefixOf (x :: (t ++ r)) || containsChars need (t ++ r)) = true
      rw [ih hrec, Bool.or_true]

theorem containsChars_mem_join (sep : List Char) (parts : List (List Char))
    (x : List Char) (hx : x ∈ parts) :
    containsChars x (joinChars sep parts) = true := by
  induction parts with
  | nil => cases hx
  | cons p ps ih =>
    rcases List.mem_cons.mp hx with hxp | hxps
    · subst hxp
      cases ps with
      | nil => exact containsChars_self x
      | cons q qs => exact containsChars_self_append x _
    · cases ps with
      | nil => cases hxps
      | cons q qs =>
        show containsChars x (p ++ (sep ++ joinChars sep (q :: qs))) = true
        exact containsChars_append_right _ _ _
          (containsChars_append_right _ _ _ (ih hxps))

theorem intuitionistMissingMsg_contains (missing : List String) (mid : String)
    (h : mid ∈ missing) : jsIncludes (intuitionistMissingMsg missing) mid = true := by
  unfold jsIncludes intuitionistMissingMsg
  rw [String.data_append, String.data_append]
  apply containsChars_append_left
  apply containsChars_append_right
  show containsChars mid.data (joinChars (", " : String).data (missing.map String.data)) = true
  exact containsChars_mem_join _ _ _ (List.mem_map_of_mem String.data h)

theorem skepticMissingMsg_contains (nid : String) :
    jsIncludes (skepticMissingMsg nid) nid = true := by
  unfold jsIncludes skepticMissingMsg
  rw [String.data_append, String.data_append]
  apply containsChars_append_left
  apply containsChars_append_right
  exact containsChars_self nid.data

/-- Claim C1 (amended): the node-referencing one-shot tool effects
`invoke_intuitionist` and `challenge_with_skeptic` validate their
referenced node ids: a missing id mutates no component state and feeds a
structured failure response back to the oracle whose error text names
each missing id, and `request_formal_verification` on a missing node id
also mutates nothing.  (`modify_agent_prompt`, by contrast, performs no
validation at all — see the counterexample — and
`request_formal_verification` reports `success: true` with feedback that
does not name the id.) -/
theorem tool_missing_id_validation :
    (∀ (s : MissionState) (idA idB concept : String),
      mapGet s.knowledgeGraphMap idA = none ∨ mapGet s.knowledgeGraphMap idB = none →
      (invokeIntuitionist s idA idB concept).1 = s ∧
      (invokeIntuitionist s idA idB concept).2.success = false ∧
      (∃ msg, (invokeIntuitionist s idA idB concept).2.error = some msg ∧
        (mapGet s.knowledgeGraphMap idA = none → jsIncludes msg idA = true) ∧
        (mapGet s.knowledgeGraphMap idB = none → jsIncludes msg idB = true))) ∧
    (∀ (s : MissionState) (nid critique : String),
      mapGet s.knowledgeGraphMap nid = none →
      (challengeWithSkeptic s nid critique).1 = s ∧
      (challengeWithSkeptic s nid critique).2.success = false ∧
      (∃ msg, (challengeWithSkeptic s nid critique).2.error = some msg ∧
        jsIncludes msg nid = true)) ∧
    (∀ (s : MissionState) (nid code : String) (rand : ℚ) (line : ℕ),
      mapGet s.knowledgeGraphMap nid = none →
      (requestFormalVerification s nid code rand line).1 = s) := by
  refine ⟨?_, ?_, ?_⟩
  · intro s idA idB concept hmiss
    cases hA : mapGet s.knowledgeGraphMap idA with
    | some a =>
      cases hB : mapGet s.knowledgeGraphMap idB with
      | some b =>
        rw [hA, hB] at hmiss
        rcases hmiss with h | h <;> cases h
      | none =>
        refine ⟨by simp [invokeIntuitionist, hA, hB], by simp [invokeIntuitionist, hA, hB], ?_⟩
        refine ⟨intuitionistMissingMsg [idB], by simp [invokeIntuitionist, hA, hB], ?_, ?_⟩
        · intro habs
          cases habs
        · intro _
          exact intuitionistMissingMsg_contains [idB] idB (List.mem_singleton_self idB)
    | none =>
      cases hB : mapGet s.knowledgeGraphMap idB with
      | some b =>
        refine ⟨by simp [invokeIntuitionist, hA, hB], by simp [invokeIntuitionist, hA, hB], ?_⟩
        refine ⟨intuitionistMissingMsg [idA], by simp [invokeIntuitionist, hA, hB], ?_, ?_⟩
        · intro _
          exact intuitionistMissingMsg_contains [idA] idA (List.mem_singleton_self idA)
        · intro habs
          cases habs
      | none =>
        refine ⟨by simp [invokeIntuitionist, hA, hB], by simp [invokeIntuitionist, hA, hB], ?_⟩
        refine ⟨intuitionistMissingMsg [idA, idB], by simp [invokeIntuitionist, hA, hB], ?_, ?_⟩
        · intro _
          exact intuitionistMissingMsg_contains [idA, idB] idA (List.mem_cons_self _ _)
        · intro _
          exact intuitionistMissingMsg_contains [idA, idB] idB
            (List.mem_cons_of_mem _ (List.mem_singleton_self idB))
  · intro s nid critique hmiss
    refine ⟨by simp [challengeWithSkeptic, hmiss], by simp [challengeWithSkeptic, hmiss],
      skepticMissingMsg nid, by simp [challengeWithSkeptic, hmiss], skepticMissingMsg_contains nid⟩
  · intro s nid code rand line hmiss
    simp [requestFormalVerification, hmiss]

/-- Witness for C1 (amended): on the reset state (whose knowledge graph
is empty), invoking the intuitionist on `X1`/`X2` mutates nothing and
yields a failure whose text names both ids, challenging `X1` mutates
nothing and names it, and requesting verification of `X1` mutates
nothing. -/
theorem tool_missing_id_validation_witness :
    ((invokeIntuitionist testState "X1" "X2" "c").1 = testState ∧
      (invokeIntuitionist testState "X1" "X2" "c").2.success = false) ∧
    ((challengeWithSkeptic testState "X1" "c").1 = testState ∧
      (challengeWithSkeptic testState "X1" "c").2.success = false) ∧
    (requestFormalVerification testState "X1" "proof" (1/2) 3).1 = testState := by
  refine ⟨?_, ?_, ?_⟩
  · have h := tool_missing_id_validation.1 testState "X1" "X2" "c" (Or.inl rfl)
    exact ⟨h.1, h.2.1⟩
  · have h := tool_missing_id_validation.2.1 testState "X1" "c" rfl
    exact ⟨h.1, h.2.1⟩
  · exact tool_missing_id_validation.2.2 testState "X1" "proof" (1/2) 3 rfl

/-- Counterexample for C1 as stated: the `modify_agent_prompt` tool
effect with the nonexistent agent id `ghost-agent` both mutates
component state (it creates a prompt entry for the unknown id) and
reports success to the oracle instead of a failure naming the id. -/
theorem modify_ghost_prompt_counterexample :
    testState.specialistPrompts = [] ∧
    testState.notebooks.contains "ghost-agent" = false ∧
    mapGet testState.specialistMetadata "ghost-agent" = none ∧
    (modifyAgentPrompt testState "ghost-agent" "p").1.specialistPrompts =
      [("ghost-agent", "p")] ∧
    (modifyAgentPrompt testState "ghost-agent" "p").2.success = true ∧
    (modifyAgentPrompt testState "ghost-agent" "p").2.error = none := by
  exact ⟨rfl, by decide, rfl, by decide, rfl, rfl⟩

theorem string_eq_of_data_eq (s t : String) (h : s.data = t.data) : s = t :=
  congrArg String.mk h

theorem toDigitsCore_eq_digits :
    ∀ (f n : ℕ) (acc : List Char), 0 < n → n < f →
      Nat.toDigitsCore 10 f n acc =
        ((Nat.digits 10 n).reverse.map Nat.digitChar) ++ acc := by
  intro f
  induction f with
  | zero => intro n acc h0 hf; omega
  | succ f ih =>
    intro n acc h0 hf
    rw [show Nat.toDigitsCore 10 (f+1) n acc =
        if n / 10 = 0 then Nat.digitChar (n % 10) :: acc
        else Nat.toDigitsCore 10 f (n / 10) (Nat.digitChar (n % 10) :: acc)
      from by simp [Nat.toDigitsCore]]
    by_cases hdiv : n / 10 = 0
    · rw [if_pos hdiv]
      have hdig : Nat.digits 10 n = [n % 10] := by
        rw [Nat.digits_def' (by norm_num : (1:ℕ) < 10) h0, hdiv, Nat.digits_zero]
      rw [hdig]
      simp
    · rw [if_neg hdiv]
      have h0' : 0 < n / 10 := Nat.pos_of_ne_zero hdiv
      have hlt : n / 10 < f := by
        have : n / 10 < n := Nat.div_lt_self h0 (by norm_num)
        omega
      rw [ih (n / 10) _ h0' hlt,
        Nat.digits_def' (by norm_num : (1:ℕ) < 10) h0]
      simp

theorem repr_data_of_pos (n : ℕ) (h : 0 < n) :
    (Nat.repr n).data = (Nat.digits 10 n).reverse.map Nat.digitChar := by
  show (Nat.toDigitsCore 10 (n+1) n []).asString.data = _
  rw [toDigitsCore_eq_digits (n+1) n [] h (by omega), List.append_nil]
  rfl

theorem digitChar_inj_lt10 :
    ∀ a < 10, ∀ b < 10, Nat.digitChar a = Nat.digitChar b → a = b := by decide

theorem map_digitChar_inj :
    ∀ (l1 l2 : List ℕ), (∀ x ∈ l1, x < 10) → (∀ x ∈ l2, x < 10) →
      l1.map Nat.digitChar = l2.map Nat.digitChar → l1 = l2 := by
  intro l1
  induction l1 with
  | nil =>
    intro l2 _ _ h
    cases l2 with
    | nil => rfl
    | cons b t => cases h
  | cons a t ih =>
    intro l2 h1 h2 h
    cases l2 with
    | nil => cases h
    | cons b t2 =>
      have hab : Nat.digitChar a = Nat.digitChar b := by injection h
      have htt : t.map Nat.digitChar = t2.map Nat.digitChar := by injection h
      have ha : a = b := digitChar_inj_lt10 a (h1 a (List.mem_cons_self a t)) b
        (h2 b (List.mem_cons_self b t2)) hab
      rw [ha, ih t2 (fun x hx => h1 x (List.mem_cons_of_mem a hx))
        (fun x hx => h2 x (List.mem_cons_of_mem b hx)) htt]

theorem repr_injective : ∀ m n : ℕ, Nat.repr m = Nat.repr n → m = n := by
  have hone : ∀ k : ℕ, 0 < k → Nat.repr k = "0" → False := by
    intro k hk h
    have hd := congrArg String.data h
    rw [repr_data_of_pos k hk] at hd
    have : (Nat.digits 10 k).reverse = [0] := by
      apply map_digitChar_inj
      · intro x hx
        exact Nat.digits_lt_base (by norm_num) (List.mem_reverse.mp hx)
      · intro x hx
        rw [List.mem_singleton] at hx
        omega
      · rw [hd]
        rfl
    have hdig : Nat.digits 10 k = [0] := by
      have := congrArg List.reverse this
      simpa using this
    have := Nat.ofDigits_digits 10 k
    rw [hdig] at this
    simp [Nat.ofDigits] at this
    omega
  intro m n h
  match m, n with
  | 0, 0 => rfl
  | 0, k+1 => exact absurd h.symm (fun hh => hone (k+1) (by omega) hh)
  | k+1, 0 => exact absurd h (fun hh => hone (k+1) (by omega) hh)
  | j+1, k+1 =>
    have hd := congrArg String.data h
    rw [repr_data_of_pos (j+1) (by omega), repr_data_of_pos (k+1) (by omega)] at hd
    have hrev : (Nat.digits 10 (j+1)).reverse = (Nat.digits 10 (k+1)).reverse := by
      apply map_digitChar_inj _ _ ?_ ?_ hd
      · intro x hx
        exact Nat.digits_lt_base (by norm_num) (List.mem_reverse.mp hx)
      · intro x hx
        exact Nat.digits_lt_base (by norm_num) (List.mem_reverse.mp hx)
    have hdig : Nat.digits 10 (j+1) = Nat.digits 10 (k+1) :=
      List.reverse_injective hrev
    have := Nat.ofDigits_digits 10 (j+1)
    rw [hdig, Nat.ofDigits_digits] at this
    omega

theorem typeInitial_data (t : NodeType) : ∃ c, (typeInitial t).data = [c] := by
  cases t <;> exact ⟨_, rfl⟩

theorem mkId_inj (t t' : NodeType) (m n : ℕ)
    (h : typeInitial t ++ Nat.repr m = typeInitial t' ++ Nat.repr n) : m = n := by
  have hd := congrArg String.data h
  rw [String.data_append, String.data_append] at hd
  obtain ⟨c, hc⟩ := typeInitial_data t
  obtain ⟨c', hc'⟩ := typeInitial_data t'
  rw [hc, hc'] at hd
  have hdata : (Nat.repr m).data = (Nat.repr n).data := by injection hd
  exact repr_injective m n (string_eq_of_data_eq _ _ hdata)

theorem assignedIds_mem (c : ℕ) (us : List KnowledgeUpdateEntry) (id : String)
    (h : id ∈ assignedIds c us) :
    ∃ t m, c ≤ m ∧ m < c + us.length ∧ id = typeInitial t ++ Nat.repr m := by
  induction us generalizing c with
  | nil => cases h
  | cons u rest ih =>
    rcases List.mem_cons.mp h with h1 | h2
    · exact ⟨u.type, c, Nat.le_refl c, by simp, h1⟩
    · obtain ⟨t, m, hm1, hm2, hm3⟩ := ih (c+1) h2
      refine ⟨t, m, by omega, ?_, hm3⟩
      simp only [List.length_cons]
      omega

theorem assignedIds_nodup (c : ℕ) (us : List KnowledgeUpdateEntry) :
    (assignedIds c us).Nodup := by
  induction us generalizing c with
  | nil => exact List.nodup_nil
  | cons u rest ih =>
    refine List.nodup_cons.mpr ⟨?_, ih (c+1)⟩
    intro hmem
    obtain ⟨t, m, hm1, _, hm3⟩ := assignedIds_mem (c+1) rest _ hmem
    have : c = m := mkId_inj u.type t c m hm3
    omega

theorem allAssignedIds_mem (c : ℕ) (rs : List SynthesizerResponse) (id : String)
    (h : id ∈ allAssignedIds c rs) :
    ∃ t m, c ≤ m ∧ id = typeInitial t ++ Nat.repr m := by
  induction rs generalizing c with
  | nil => cases h
  | cons r rest ih =>
    rcases List.mem_append.mp h with h1 | h2
    · obtain ⟨t, m, hm1, _, hm3⟩ := assignedIds_mem c r.knowledge_update id h1
      exact ⟨t, m, hm1, hm3⟩
    · obtain ⟨t, m, hm1, hm3⟩ := ih (c + r.knowledge_update.length) h2
      exact ⟨t, m, by omega, hm3⟩

theorem allAssignedIds_nodup (c : ℕ) (rs : List SynthesizerResponse) :
    (allAssignedIds c rs).Nodup := by
  induction rs generalizing c with
  | nil => exact List.nodup_nil
  | cons r rest ih =>
    refine (assignedIds_nodup c r.knowledge_update).append (ih _) ?_
    intro id h1 h2
    obtain ⟨t, m, hm1, hm2, hm3⟩ := assignedIds_mem c r.knowledge_update id h1
    obtain ⟨t', m', hm1', hm3'⟩ :=
      allAssignedIds_mem (c + r.knowledge_update.length) rest id h2
    have : m = m' := mkId_inj t t' m m' (hm3 ▸ hm3')
    omega

theorem assignedIds_getElem (c : ℕ) (us : List KnowledgeUpdateEntry) :
    ∀ (i : ℕ) (u : KnowledgeUpdateEntry), us[i]? = some u →
      (assignedIds c us)[i]? = some (typeInitial u.type ++ Nat.repr (c + i)) := by
  induction us generalizing c with
  | nil => intro i u h; simp at h
  | cons v rest ih =>
    intro i u h
    cases i with
    | zero =>
      rw [List.getElem?_cons_zero] at h
      injection h with hv
      subst hv
      rw [show assignedIds c (v :: rest) =
          (typeInitial v.type ++ Nat.repr c) :: assignedIds (c+1) rest from rfl]
      rw [List.getElem?_cons_zero, Nat.add_zero]
    | succ i =>
      rw [List.getElem?_cons_succ] at h
      rw [show assignedIds c (v :: rest) =
          (typeInitial v.type ++ Nat.repr c) :: assignedIds (c+1) rest from rfl]
      rw [List.getElem?_cons_succ, ih (c+1) i u h,
        show c + (i + 1) = (c + 1) + i from by omega]

theorem aku_counter (vectors : List ResearchVector) (embed : EmbedOracle)
    (s : MissionState) (u : KnowledgeUpdateEntry) :
    (applyKnowledgeUpdate vectors embed s u).knowledgeNodeCounter =
      s.knowledgeNodeCounter + 1 := rfl

theorem foldl_aku_counter (vectors : List ResearchVector) (embed : EmbedOracle) :
    ∀ (us : List KnowledgeUpdateEntry) (s : MissionState),
      (us.foldl (applyKnowledgeUpdate vectors embed) s).knowledgeNodeCounter =
        s.knowledgeNodeCounter + us.length := by
  intro us
  induction us with
  | nil => intro s; simp
  | cons u rest ih =>
    intro s
    rw [List.foldl_cons, ih, aku_counter, List.length_cons]
    omega

theorem parse_match4_graph (resp : SynthesizerResponse) (st : MissionState) :
    (match resp.strategic_assessment with
      | some assessment =>
        { st with
          stagnationCounter :=
            if 0 < assessment.stagnation_level then st.stagnationCounter + 1 else 0 }
      | none => st).knowledgeGraphMap = st.knowledgeGraphMap := by
  cases resp.strategic_assessment <;> rfl

theorem parse_match4_counter (resp : SynthesizerResponse) (st : MissionState) :
    (match resp.strategic_assessment with
      | some assessment =>
        { st with
          stagnationCounter :=
            if 0 < assessment.stagnation_level then st.stagnationCounter + 1 else 0 }
      | none => st).knowledgeNodeCounter = st.knowledgeNodeCounter := by
  cases resp.strategic_assessment <;> rfl

theorem parse_match3_graph (resp : SynthesizerResponse) (st : MissionState) :
    (match bestResearchVector resp.strategic_planning.research_vectors with
      | some best => if best = "" then st else { st with activeResearchVector := best }
      | none => st).knowledgeGraphMap = st.knowledgeGraphMap := by
  cases bestResearchVector resp.strategic_planning.research_vectors with
  | none => rfl
  | some best =>
    show (if best = "" then st else { st with activeResearchVector := best }).knowledgeGraphMap = _
    by_cases hb : best = ""
    · rw [if_pos hb]
    · rw [if_neg hb]

theorem parse_match3_counter (resp : SynthesizerResponse) (st : MissionState) :
    (match bestResearchVector resp.strategic_planning.research_vectors with
      | some best => if best = "" then st else { st with activeResearchVector := best }
      | none => st).knowledgeNodeCounter = st.knowledgeNodeCounter := by
  cases bestResearchVector resp.strategic_planning.research_vectors with
  | none => rfl
  | some best =>
    show (if best = "" then st else { st with activeResearchVector := best }).knowledgeNodeCounter = _
    by_cases hb : best = ""
    · rw [if_pos hb]
    · rw [if_neg hb]

theorem parse_match1_graph (resp : SynthesizerResponse) (s : MissionState) :
    (match resp.strategic_planning.strategic_focus with
      | some focus =>
        if focus = "" then s
        else { s with strategicFocusHistory := s.strategicFocusHistory ++ [focus] }
      | none => s).knowledgeGraphMap = s.knowledgeGraphMap := by
  cases resp.strategic_planning.strategic_focus with
  | none => rfl
  | some focus =>
    show (if focus = "" then s
      else { s with strategicFocusHistory := s.strategicFocusHistory ++ [focus] }).knowledgeGraphMap = _
    by_cases hf : focus = ""
    · rw [if_pos hf]
    · rw [if_neg hf]

theorem parse_match1_counter (resp : SynthesizerResponse) (s : MissionState) :
    (match resp.strategic_planning.strategic_focus with
      | some focus =>
        if focus = "" then s
        else { s with strategicFocusHistory := s.strategicFocusHistory ++ [focus] }
      | none => s).knowledgeNodeCounter = s.knowledgeNodeCounter := by
  cases resp.strategic_planning.strategic_focus with
  | none => rfl
  | some focus =>
    show (if focus = "" then s
      else { s with strategicFocusHistory := s.strategicFocusHistory ++ [focus] }).knowledgeNodeCounter = _
    by_cases hf : focus = ""
    · rw [if_pos hf]
    · rw [if_neg hf]

theorem parseAndApply_counter (s : MissionState) (resp : SynthesizerResponse)
    (embed : EmbedOracle) :
    (parseAndApplyArchitectResponse s resp embed).knowledgeNodeCounter =
      s.knowledgeNodeCounter + resp.knowledge_update.length := by
  unfold parseAndApplyArchitectResponse
  show (renderKnowledgeGraph _).knowledgeNodeCounter = _
  rw [show ∀ st : MissionState, (renderKnowledgeGraph st).knowledgeNodeCounter =
    st.knowledgeNodeCounter from fun _ => rfl]
  rw [parse_match4_counter, parse_match3_counter, foldl_aku_counter, parse_match1_counter]

theorem mem_mapSet_keys {α : Type} (m : List (String × α)) (k : String) (v : α)
    (x : String) :
    x ∈ (mapSet m k v).map Prod.fst ↔ x ∈ m.map Prod.fst ∨ x = k := by
  unfold mapSet
  by_cases h : mapHas m k
  · rw [if_pos h]
    have hkeys : (m.map (fun p => if p.1 = k then (k, v) else p)).map Prod.fst =
        m.map Prod.fst := by
      rw [List.map_map]
      apply List.map_congr_left
      intro p _
      show Prod.fst (if p.1 = k then (k, v) else p) = p.1
      by_cases hp : p.1 = k
      · rw [if_pos hp, hp]
      · rw [if_neg hp]
    rw [hkeys]
    constructor
    · exact Or.inl
    · rintro (hx | hx)
      · exact hx
      · rw [hx]
        have hsome : (m.find? (fun p => decide (p.1 = k))).isSome := by
          have hk : (mapGet m k).isSome := h
          unfold mapGet at hk
          simpa [Option.isSome_map] using hk
        obtain ⟨p, hp, hpk⟩ := List.find?_isSome.mp hsome
        exact List.mem_map.mpr ⟨p, hp, of_decide_eq_true hpk⟩
  · rw [if_neg h, List.map_append]
    simp [List.mem_append]

theorem aku_graph_keys (vectors : List ResearchVector) (embed : EmbedOracle)
    (s : MissionState) (u : KnowledgeUpdateEntry) (x : String) :
    x ∈ (applyKnowledgeUpdate vectors embed s u).knowledgeGraphMap.map Prod.fst ↔
      x ∈ s.knowledgeGraphMap.map Prod.fst ∨
        x = typeInitial u.type ++ Nat.repr s.knowledgeNodeCounter := by
  exact mem_mapSet_keys s.knowledgeGraphMap _ _ x

theorem foldl_aku_graph_keys (vectors : List ResearchVector) (embed : EmbedOracle) :
    ∀ (us : List KnowledgeUpdateEntry) (s : MissionState) (x : String),
      x ∈ (us.foldl (applyKnowledgeUpdate vectors embed) s).knowledgeGraphMap.map Prod.fst ↔
        x ∈ s.knowledgeGraphMap.map Prod.fst ∨
          x ∈ assignedIds s.knowledgeNodeCounter us := by
  intro us
  induction us with
  | nil => intro s x; simp [assignedIds]
  | cons u rest ih =>
    intro s x
    rw [List.foldl_cons, ih, aku_graph_keys, aku_counter]
    rw [show assignedIds s.knowledgeNodeCounter (u :: rest) =
      (typeInitial u.type ++ Nat.repr s.knowledgeNodeCounter) ::
        assignedIds (s.knowledgeNodeCounter + 1) rest from rfl]
    rw [List.mem_cons]
    tauto

theorem render_graph_keys_eq (st : MissionState) :
    (renderKnowledgeGraph st).knowledgeGraphMap.map Prod.fst =
      st.knowledgeGraphMap.map Prod.fst := by
  unfold renderKnowledgeGraph
  rw [List.map_map]
  exact List.map_congr_left (fun p _ => rfl)

theorem parse_graph_keys (s : MissionState) (resp : SynthesizerResponse)
    (embed : EmbedOracle) (x : String) :
    x ∈ (parseAndApplyArchitectResponse s resp embed).knowledgeGraphMap.map Prod.fst ↔
      x ∈ s.knowledgeGraphMap.map Prod.fst ∨
        x ∈ assignedIds s.knowledgeNodeCounter resp.knowledge_update := by
  unfold parseAndApplyArchitectResponse
  rw [render_graph_keys_eq]
  rw [parse_match4_graph, parse_match3_graph, foldl_aku_graph_keys]
  rw [parse_match1_graph, parse_match1_counter]

theorem foldl_parse_counter (embed : EmbedOracle) :
    ∀ (rs : List SynthesizerResponse) (s : MissionState),
      (rs.foldl (fun st r => parseAndApplyArchitectResponse st r embed) s).knowledgeNodeCounter =
        s.knowledgeNodeCounter + (rs.map (fun r => r.knowledge_update.length)).sum := by
  intro rs
  induction rs with
  | nil => intro s; simp
  | cons r rest ih =>
    intro s
    rw [List.foldl_cons, ih, parseAndApply_counter, List.map_cons, List.sum_cons]
    omega

theorem foldl_parse_graph_keys (embed : EmbedOracle) :
    ∀ (rs : List SynthesizerResponse) (s : MissionState) (x : String),
      x ∈ (rs.foldl (fun st r => parseAndApplyArchitectResponse st r embed)
          s).knowledgeGraphMap.map Prod.fst ↔
        x ∈ s.knowledgeGraphMap.map Prod.fst ∨
          x ∈ allAssignedIds s.knowledgeNodeCounter rs := by
  intro rs
  induction rs with
  | nil => intro s x; simp [allAssignedIds]
  | cons r rest ih =>
    intro s x
    rw [List.foldl_cons, ih, parse_graph_keys, parseAndApply_counter]
    rw [show allAssignedIds s.knowledgeNodeCounter (r :: rest) =
      assignedIds s.knowledgeNodeCounter r.knowledge_update ++
        allAssignedIds (s.knowledgeNodeCounter + r.knowledge_update.length) rest from rfl]
    rw [List.mem_append]
    tauto

/-- Claim C3: across any sequence of architect payloads, the shared
node-id counter increases by exactly one per inserted knowledge node,
every assigned id has the form `<first character of the node type's
name><counter value at insertion>`, the assigned ids are pairwise
distinct (no id is ever reused), and the knowledge-graph keys afterwards
are exactly the previous keys together with the assigned ids. -/
theorem node_id_allocation_unique (s : MissionState)
    (resps : List SynthesizerResponse) (embed : EmbedOracle) :
    (resps.foldl (fun st r => parseAndApplyArchitectResponse st r embed)
        s).knowledgeNodeCounter =
      s.knowledgeNodeCounter + (resps.map (fun r => r.knowledge_update.length)).sum ∧
    (∀ (c i : ℕ) (us : List KnowledgeUpdateEntry) (u : KnowledgeUpdateEntry),
      us[i]? = some u →
      (assignedIds c us)[i]? = some (typeInitial u.type ++ Nat.repr (c + i))) ∧
    (allAssignedIds s.knowledgeNodeCounter resps).Nodup ∧
    (∀ id, id ∈ (resps.foldl (fun st r => parseAndApplyArchitectResponse st r embed)
        s).knowledgeGraphMap.map Prod.fst ↔
      id ∈ s.knowledgeGraphMap.map Prod.fst ∨
        id ∈ allAssignedIds s.knowledgeNodeCounter resps) :=
  ⟨foldl_parse_counter embed resps s,
    fun c i us u h => assignedIds_getElem c us i u h,
    allAssignedIds_nodup s.knowledgeNodeCounter resps,
    fun id => foldl_parse_graph_keys embed resps s id⟩

/-- Witness for C3 on a concrete payload (a THEOREM node then a
HYPOTHESIS node inserted into the reset state): the counter ends at 2,
the second assigned id is `H1`, the assigned ids are pairwise distinct,
and `H1` is a key of the resulting graph. -/
theorem node_id_allocation_unique_witness :
    let u1 : KnowledgeUpdateEntry :=
      { type := NodeType.THEOREM, content := "t", relations := [],
        created_by := "specialist-1" }
    let u2 : KnowledgeUpdateEntry :=
      { type := NodeType.HYPOTHESIS, content := "h", relations := [],
        created_by := "specialist-2" }
    let r : SynthesizerResponse :=
      { knowledge_update := [u1, u2],
        strategic_planning := { strategic_focus := none, research_vectors := [] },
        strategic_assessment := none, synthesis_summary := none }
    ([r].foldl (fun st q => parseAndApplyArchitectResponse st q (fun _ => none))
        testState).knowledgeNodeCounter = 2 ∧
    (assignedIds 0 [u1, u2])[1]? = some "H1" ∧
    (allAssignedIds 0 [r]).Nodup ∧
    "H1" ∈ ([r].foldl (fun st q => parseAndApplyArchitectResponse st q (fun _ => none))
        testState).knowledgeGraphMap.map Prod.fst := by
  intro u1 u2 r
  refine ⟨?_, ?_, ?_, ?_⟩
  · exact (node_id_allocation_unique testState [r] (fun _ => none)).1.trans rfl
  · exact ((node_id_allocation_unique testState [r] (fun _ => none)).2.1 0 1 [u1, u2] u2
      rfl).trans rfl
  · exact (node_id_allocation_unique testState [r] (fun _ => none)).2.2.1
  · refine ((node_id_allocation_unique testState [r] (fun _ => none)).2.2.2 "H1").mpr ?_
    refine Or.inr ?_
    rw [show allAssignedIds testState.knowledgeNodeCounter [r] = ["T0", "H1"] from rfl]
    exact List.mem_cons_of_mem _ (List.mem_cons_self _ _)

theorem searchComparator_trans : ∀ a b c : String × ℝ,
    searchComparator a b → searchComparator b c → searchComparator a c := by
  intro a b c hab hbc
  exact decide_eq_true (le_trans (of_decide_eq_true hbc) (of_decide_eq_true hab))

theorem searchComparator_total : ∀ a b : String × ℝ,
    (searchComparator a b || searchComparator b a) = true := by
  intro a b
  rcases le_total a.2 b.2 with h | h
  · rw [show searchComparator b a = true from decide_eq_true h, Bool.or_true]
  · rw [show searchComparator a b = true from decide_eq_true h, Bool.true_or]

theorem cosineSimilarity_length_ne (a b : List ℚ) (h : a.length ≠ b.length) :
    cosineSimilarity a b = 0 := by
  unfold cosineSimilarity
  rw [if_pos h]

theorem cosineSimilarity_zero_magnitude (a b : List ℚ)
    (h : magnitude a = 0 ∨ magnitude b = 0) : cosineSimilarity a b = 0 := by
  unfold cosineSimilarity
  by_cases hlen : a.length ≠ b.length
  · rw [if_pos hlen]
  · rw [if_neg hlen, if_pos h]

theorem magnitude_one_zero : magnitude [(1 : ℚ), 0] = 1 := by
  unfold magnitude
  rw [show ((([(1 : ℚ), 0].map (fun x => x * x)).sum : ℚ) : ℝ) = 1 by norm_num]
  exact Real.sqrt_one

theorem magnitude_zero_one : magnitude [(0 : ℚ), 1] = 1 := by
  unfold magnitude
  rw [show ((([(0 : ℚ), 1].map (fun x => x * x)).sum : ℚ) : ℝ) = 1 by norm_num]
  exact Real.sqrt_one

theorem cosineSimilarity_ex_one : cosineSimilarity [(1 : ℚ), 0] [(1 : ℚ), 0] = 1 := by
  unfold cosineSimilarity
  rw [if_neg (by norm_num), magnitude_one_zero,
    if_neg (by norm_num : ¬((1 : ℝ) = 0 ∨ (1 : ℝ) = 0))]
  rw [show dotProduct [(1 : ℚ), 0] [(1 : ℚ), 0] = 1 by norm_num [dotProduct]]
  norm_num

theorem cosineSimilarity_ex_zero : cosineSimilarity [(1 : ℚ), 0] [(0 : ℚ), 1] = 0 := by
  unfold cosineSimilarity
  rw [if_neg (by norm_num), magnitude_one_zero, magnitude_zero_one,
    if_neg (by norm_num : ¬((1 : ℝ) = 0 ∨ (1 : ℝ) = 0))]
  rw [show dotProduct [(1 : ℚ), 0] [(0 : ℚ), 1] = 0 by norm_num [dotProduct]]
  norm_num

/-- Claim C4: a top-k similarity query returns at most `k` results; the
ranked entries are in weakly descending cosine-similarity order with
ties kept in index insertion order (the sort is stable); the similarity
is `0` whenever the vector lengths differ or either magnitude is zero;
and on the concrete example — query `[1,0]` against stored vectors
`B ↦ [1,0]` and `C ↦ [0,1]` — node `B` is ranked above node `C`
(`k = 3`, the source's default). -/
theorem semantic_search_topk_ordering :
    (∀ (graph : List (String × KnowledgeNode)) (q : List ℚ) (base : List VectorEntry)
        (k : ℕ), (performSemanticSearch graph q base k).length ≤ k) ∧
    (∀ (q : List ℚ) (base : List VectorEntry),
      (rankedEntries q base).Pairwise (fun a b => b.2 ≤ a.2)) ∧
    (∀ a b : List ℚ, a.length ≠ b.length → cosineSimilarity a b = 0) ∧
    (∀ a b : List ℚ, magnitude a = 0 ∨ magnitude b = 0 → cosineSimilarity a b = 0) ∧
    (∀ (q : List ℚ) (base : List VectorEntry) (a b : String × ℝ), a.2 = b.2 →
      List.Sublist [a, b] (scoredEntries q base) →
      List.Sublist [a, b] (rankedEntries q base)) ∧
    performSemanticSearch searchGraphBC [(1 : ℚ), 0] searchBaseBC 3 = [nodeB, nodeC] := by
  refine ⟨?_, ?_, cosineSimilarity_length_ne, cosineSimilarity_zero_magnitude, ?_, ?_⟩
  · intro graph q base k
    unfold performSemanticSearch
    exact le_trans (List.length_filterMap_le _ _)
      (le_trans (Nat.le_of_eq (List.length_take _ _)) (Nat.min_le_left _ _))
  · intro q base
    unfold rankedEntries
    exact (List.sorted_mergeSort searchComparator_trans searchComparator_total
      (scoredEntries q base)).imp (fun h => of_decide_eq_true h)
  · intro q base a b hab hsub
    unfold rankedEntries
    exact List.pair_sublist_mergeSort searchComparator_trans searchComparator_total
      (decide_eq_true (le_of_eq (congrArg id hab).symm)) hsub
  · have hsc : scoredEntries [(1 : ℚ), 0] searchBaseBC = [("B", (1 : ℝ)), ("C", 0)] := by
      rw [show scoredEntries [(1 : ℚ), 0] searchBaseBC =
        [("B", cosineSimilarity [(1 : ℚ), 0] [(1 : ℚ), 0]),
         ("C", cosineSimilarity [(1 : ℚ), 0] [(0 : ℚ), 1])] from rfl]
      rw [cosineSimilarity_ex_one, cosineSimilarity_ex_zero]
    have hrank : rankedEntries [(1 : ℚ), 0] searchBaseBC = [("B", (1 : ℝ)), ("C", 0)] := by
      unfold rankedEntries
      rw [hsc]
      exact List.mergeSort_of_sorted
        (List.pairwise_pair.mpr (decide_eq_true (by norm_num : (0 : ℝ) ≤ 1)))
    unfold performSemanticSearch
    rw [hrank]
    rfl

/-- Witness for C4: a query whose vector length differs from a stored
vector scores `0`, and on an index of two zero-magnitude entries with
equal scores the ranked order keeps insertion order (`B` before `C`). -/
theorem semantic_search_topk_ordering_witness :
    cosineSimilarity [(1 : ℚ)] [(1 : ℚ), 0] = 0 ∧
    List.Sublist [("B", (0 : ℝ)), ("C", 0)]
      (rankedEntries ([] : List ℚ) [⟨"B", []⟩, ⟨"C", []⟩]) := by
  constructor
  · exact semantic_search_topk_ordering.2.2.1 [(1 : ℚ)] [(1 : ℚ), 0] (by decide)
  · have hm : magnitude ([] : List ℚ) = 0 := by
      unfold magnitude
      rw [show (((([] : List ℚ).map (fun x => x * x)).sum : ℚ) : ℝ) = 0 by norm_num]
      exact Real.sqrt_zero
    have hc : cosineSimilarity ([] : List ℚ) ([] : List ℚ) = 0 :=
      semantic_search_topk_ordering.2.2.2.1 [] [] (Or.inl hm)
    have hsc : scoredEntries ([] : List ℚ) [⟨"B", []⟩, ⟨"C", []⟩] =
        [("B", (0 : ℝ)), ("C", 0)] := by
      rw [show scoredEntries ([] : List ℚ) [⟨"B", []⟩, ⟨"C", []⟩] =
        [("B", cosineSimilarity ([] : List ℚ) []),
         ("C", cosineSimilarity ([] : List ℚ) [])] from rfl, hc]
    exact semantic_search_topk_ordering.2.2.2.2.1 [] [⟨"B", []⟩, ⟨"C", []⟩]
      ("B", 0) ("C", 0) rfl (hsc ▸ List.Sublist.refl _)
